import Mathlib

/-!
Verification of the versioned configuration-object model underlying the
Prisma Access plugin catalog (panos/plugins.py).  The catalog of object
types is embedded from the source file; the engine the catalog relies on
(version selection, tree construction, xpath building, the XML codec) is
not part of the source tree and is modelled from the specification.
-/

namespace Panos

/-- Platform version as a dotted numeric triple. -/
structure Version where
  major : Nat
  minor : Nat
  patch : Nat
deriving DecidableEq, Repr

/-- Modelled from the spec: version comparison is a total order on dotted
numeric triples, purely numeric lexicographic. -/
def Version.le (a b : Version) : Bool :=
  (a.major < b.major) ||
    (a.major == b.major &&
      ((a.minor < b.minor) || (a.minor == b.minor && a.patch ≤ b.patch)))

/-- Strictly-lower comparison, derived from the total order. -/
def Version.lt (a b : Version) : Bool := !(Version.le b a)

/-- Typed parameter values carried by a configuration object. -/
inductive Value where
  | str (s : String)
  | bool (b : Bool)
  | int (n : Int)
  | list (l : List String)
deriving DecidableEq, Repr

/-- Modelled from the spec: the value kinds a ParamSpec can declare.
In the source catalog these are the vartype markers yesno, int, member,
exist, encrypted, an enumerated values tuple, or no vartype (string). -/
inductive ValueKind where
  | str
  | yesno
  | int
  | member
  | exist
  | encrypted
  | enum (allowed : List String)
deriving DecidableEq, Repr

/-- Modelled from the spec: ParamSpec describes one configurable field.
The wire path is kept as its list of path segments. -/
structure ParamSpec where
  name : String
  wirePath : List String
  valueKind : ValueKind
  defaultValue : Option Value := none
deriving DecidableEq, Repr

/-- Modelled from the spec: ObjectTypeSchema, one registry entry per
object type of the catalog. -/
structure ObjectTypeSchema where
  typeId : String
  xpathSegs : List String
  isRepeated : Bool
  childTypes : List String
  paramSpecsByVersion : List (Version × List ParamSpec)
deriving DecidableEq, Repr

/-- Modelled from the spec: the error taxonomy of the engine. -/
inductive CodecError where
  | unsupportedVersion
  | invalidChildType
  | duplicateIdentity
  | unknownParameter
  | versionGatedParameter
  | invalidEnumValue
  | malformedWireData
  | typeMismatch
  | missingIdentity
  | unknownType
deriving DecidableEq, Repr

mutual
/-- Modelled from the spec: a node of the configuration tree. -/
inductive ConfigObject where
  | mk (typeId : String) (identity : Option String)
       (values : List (String × Value)) (children : ConfigForest)
/-- An ordered sequence of configuration objects. -/
inductive ConfigForest where
  | nil
  | cons (c : ConfigObject) (cs : ConfigForest)
end

mutual
/-- Modelled from the spec: an XML element with a tag, an optional entry
name attribute, optional text content and child elements. -/
inductive XNode where
  | elem (tag : String) (nameAttr : Option String)
         (text : Option String) (children : XForest)
/-- An ordered sequence of XML elements. -/
inductive XForest where
  | nil
  | cons (x : XNode) (xs : XForest)
end

deriving instance DecidableEq for ConfigObject, ConfigForest
deriving instance DecidableEq for XNode, XForest
deriving instance DecidableEq for Except

def XNode.tag : XNode → String
  | .elem t _ _ _ => t

def XNode.nameAttr : XNode → Option String
  | .elem _ a _ _ => a

def XNode.text : XNode → Option String
  | .elem _ _ s _ => s

def XNode.children : XNode → XForest
  | .elem _ _ _ f => f

def ConfigObject.typeId : ConfigObject → String
  | .mk t _ _ _ => t

def ConfigObject.identity : ConfigObject → Option String
  | .mk _ i _ _ => i

def ConfigObject.values : ConfigObject → List (String × Value)
  | .mk _ _ v _ => v

def ConfigObject.children : ConfigObject → ConfigForest
  | .mk _ _ _ c => c

/-- Modelled from the spec: the registry is the catalog of object type
schemas; lookup is by type identifier. -/
def findSchema (reg : List ObjectTypeSchema) (tid : String) : Option ObjectTypeSchema :=
  reg.find? (fun sch => sch.typeId == tid)

/-- Modelled from the spec: VersionSelector picks, among the registered
version keys that are at most the target version, the entry with the
greatest key; it returns none (UnsupportedVersionError) when the target
version is lower than every registered version. -/
def selectVersion (m : List (Version × List ParamSpec)) (t : Version) :
    Option (Version × List ParamSpec) :=
  match m with
  | [] => none
  | kv :: rest =>
    match selectVersion rest t with
    | none => if kv.1.le t then some kv else none
    | some best =>
      if kv.1.le t && best.1.le kv.1 then some kv else some best

/-- First binding of a parameter name in a value list. -/
def lookupValue (vals : List (String × Value)) (n : String) : Option Value :=
  (vals.find? (fun nv => nv.1 == n)).map (fun nv => nv.2)

/-- Replace the binding of a name, or append a new binding. -/
def updateValues (vals : List (String × Value)) (n : String) (v : Value) :
    List (String × Value) :=
  match vals with
  | [] => [(n, v)]
  | nv :: rest =>
    if nv.1 == n then (n, v) :: rest else nv :: updateValues rest n v

/-- Whether any registered version of the schema declares the name. -/
def schemaHasParam (sch : ObjectTypeSchema) (n : String) : Bool :=
  sch.paramSpecsByVersion.any (fun kv => kv.2.any (fun p => p.name == n))

/-- Modelled from the spec: setValue fails with UnknownParameterError when
no ParamSpec with the name exists at any version; availability at the
bound target version is not checked here but at serialization time. -/
def setValue (reg : List ObjectTypeSchema) (o : ConfigObject) (n : String)
    (v : Value) : Except CodecError ConfigObject :=
  match findSchema reg o.typeId with
  | none => .error .unknownType
  | some sch =>
    if schemaHasParam sch n then
      .ok (.mk o.typeId o.identity (updateValues o.values n v) o.children)
    else
      .error .unknownParameter

/-- Whether the forest holds a sibling of the given type and identity. -/
def forestHasSibling (cs : ConfigForest) (tid : String) (ident : Option String) : Bool :=
  match cs with
  | .nil => false
  | .cons c rest =>
    (c.typeId == tid && c.identity == ident) || forestHasSibling rest tid ident

/-- Append an object at the end of a forest. -/
def appendChild (cs : ConfigForest) (c : ConfigObject) : ConfigForest :=
  match cs with
  | .nil => .cons c .nil
  | .cons d rest => .cons d (appendChild rest c)

/-- Modelled from the spec: attachChild fails with InvalidChildTypeError
when the child type is not among the parent type's declared child types,
and with DuplicateIdentityError when the child type is repeated and an
existing sibling of the same type carries the same identity. -/
def attachChild (reg : List ObjectTypeSchema) (parent child : ConfigObject) :
    Except CodecError ConfigObject :=
  match findSchema reg parent.typeId with
  | none => .error .invalidChildType
  | some psch =>
    if psch.childTypes.contains child.typeId then
      match findSchema reg child.typeId with
      | none => .error .invalidChildType
      | some csch =>
        if csch.isRepeated && forestHasSibling parent.children child.typeId child.identity then
          .error .duplicateIdentity
        else
          .ok (.mk parent.typeId parent.identity parent.values
                 (appendChild parent.children child))
    else
      .error .invalidChildType

/-- Single quote character, used by the xpath entry predicate. -/
def squote : String := String.mk [Char.ofNat 39]

/-- Entry predicate of the form described by the spec. -/
def predString (ident : String) : String :=
  "[@name=" ++ squote ++ ident ++ squote ++ "]"

/-- Path fragment rendered from its segments with a leading separator. -/
def fragString (segs : List String) : String :=
  segs.foldl (fun acc s => acc ++ "/" ++ s) ""

/-- Modelled from the spec: XPathBuilder concatenates from root to leaf
each ancestor's fragment, followed immediately by an entry predicate for
repeated ancestors; singleton ancestors contribute only the fragment. -/
def buildXPath (reg : List ObjectTypeSchema) : List ConfigObject → Option String
  | [] => some ""
  | o :: rest =>
    match findSchema reg o.typeId with
    | none => none
    | some sch =>
      match (if sch.isRepeated then
               match o.identity with
               | some i => some (predString i)
               | none => none
             else some "") with
      | none => none
      | some pr =>
        match buildXPath reg rest with
        | none => none
        | some tail => some (fragString sch.xpathSegs ++ pr ++ tail)

/-- Little-endian decimal digits of a natural number, with explicit fuel
so the definition is structurally recursive. -/
def digitsLE : Nat → Nat → List Nat
  | 0, _ => []
  | fuel + 1, n => if n = 0 then [] else (n % 10) :: digitsLE fuel (n / 10)

/-- Value of a little-endian decimal digit list. -/
def undigitsLE : List Nat → Nat
  | [] => 0
  | d :: ds => d + 10 * undigitsLE ds

/-- Character of a single decimal digit. -/
def digitChar (d : Nat) : Char := Char.ofNat (48 + d)

/-- Decimal digit of a character, when it is one. -/
def charDigit (c : Char) : Option Nat :=
  if 48 ≤ c.toNat && c.toNat ≤ 57 then some (c.toNat - 48) else none

/-- Parse a character list as big-endian decimal digits. -/
def digitsParse : List Char → Option (List Nat)
  | [] => some []
  | c :: cs =>
    match charDigit c, digitsParse cs with
    | some d, some ds => some (d :: ds)
    | _, _ => none

/-- Decimal character rendering of a natural number. -/
def natChars (n : Nat) : List Char :=
  if n = 0 then [digitChar 0] else ((digitsLE n n).reverse).map digitChar

/-- Decimal character rendering of an integer. -/
def intChars (n : Int) : List Char :=
  if n < 0 then Char.ofNat 45 :: natChars n.natAbs else natChars n.toNat

/-- Wire text of an integer value. -/
def intToText (n : Int) : String := String.mk (intChars n)

/-- Decode wire text as a natural number written from the given chars. -/
def charsToNat (cs : List Char) : Option Nat :=
  match cs with
  | [] => none
  | _ => (digitsParse cs).map (fun ds => undigitsLE ds.reverse)

/-- Decode wire text as an integer. -/
def textToInt (s : String) : Option Int :=
  match s.data with
  | [] => none
  | c :: cs =>
    if c == Char.ofNat 45 then (charsToNat cs).map (fun m => -(m : Int))
    else (charsToNat (c :: cs)).map (fun m => (m : Int))

/-- Forest of member elements for a member-list value, one element per
entry in list order. -/
def membersForest : List String → XForest
  | [] => .nil
  | m :: ms => .cons (.elem "member" none (some m) .nil) (membersForest ms)

/-- Collect the texts of the member child elements, in document order;
fails on a member element without text. -/
def collectMembers : XForest → Option (List String)
  | .nil => some []
  | .cons (.elem t _ txt _) xs =>
    if t == "member" then
      match txt with
      | some s => (collectMembers xs).map (fun rest => s :: rest)
      | none => none
    else collectMembers xs

/-- Modelled from the spec: encode one value as the leaf text and leaf
children of its wire element, per value kind.  A result of none means the
element is omitted entirely (an existence flag that is false). -/
def encodeLeaf (k : ValueKind) (v : Value) :
    Except CodecError (Option (Option String × XForest)) :=
  match k, v with
  | .str, .str s => .ok (some (some s, .nil))
  | .encrypted, .str s => .ok (some (some s, .nil))
  | .enum allowed, .str s =>
    if allowed.contains s then .ok (some (some s, .nil))
    else .error .invalidEnumValue
  | .yesno, .bool b => .ok (some (some (if b then "yes" else "no"), .nil))
  | .int, .int n => .ok (some (some (intToText n), .nil))
  | .member, .list l => .ok (some (none, membersForest l))
  | .exist, .bool b => if b then .ok (some (none, .nil)) else .ok none
  | _, _ => .error .typeMismatch

/-- Nest leaf content under the chain of wire path segments; only the
innermost element carries the name attribute, text and children. -/
def buildChain (s : String) (rest : List String) (attr : Option String)
    (txt : Option String) (kids : XForest) : XNode :=
  match rest with
  | [] => .elem s attr txt kids
  | s2 :: r2 => .elem s none none (.cons (buildChain s2 r2 attr txt kids) .nil)

/-- Modelled from the spec: encode one parameter; produces the nested
element chain for its wire path, or nothing when the value is an
existence flag set to false. -/
def encodeParam (p : ParamSpec) (v : Value) : Except CodecError (Option XNode) :=
  match p.wirePath with
  | [] => .error .malformedWireData
  | s :: rest =>
    match encodeLeaf p.valueKind v with
    | .error e => .error e
    | .ok none => .ok none
    | .ok (some (txt, kids)) => .ok (some (buildChain s rest none txt kids))

/-- Append two element forests. -/
def xappend (f g : XForest) : XForest :=
  match f with
  | .nil => g
  | .cons x xs => .cons x (xappend xs g)

/-- Modelled from the spec: serialize the set parameters, in schema
order; parameters that are unset are not emitted, whether or not they
declare a default value. -/
def serializeParams (specs : List ParamSpec) (vals : List (String × Value)) :
    Except CodecError XForest :=
  match specs with
  | [] => .ok .nil
  | p :: ps =>
    match lookupValue vals p.name with
    | none => serializeParams ps vals
    | some v =>
      match encodeParam p v with
      | .error e => .error e
      | .ok none => serializeParams ps vals
      | .ok (some node) =>
        match serializeParams ps vals with
        | .error e => .error e
        | .ok rest => .ok (.cons node rest)

/-- Modelled from the spec: every set value must be declared by the
resolved ParamSpec set; a set value declared only at other versions is a
version-gated parameter and fails, an undeclared one is unknown. -/
def checkValues (sch : ObjectTypeSchema) (specs : List ParamSpec)
    (vals : List (String × Value)) : Except CodecError Unit :=
  match vals with
  | [] => .ok ()
  | nv :: rest =>
    if specs.any (fun p => p.name == nv.1) then checkValues sch specs rest
    else if schemaHasParam sch nv.1 then .error .versionGatedParameter
    else .error .unknownParameter

mutual
/-- Modelled from the spec: serialize one object for a target version.
The resolved ParamSpec set is selected first; set values must all be
available at the target version; parameters are encoded in schema order
and children follow, nested under the chain of the object's own path
fragment segments, with the entry name attribute on the innermost
element for repeated objects. -/
def serializeObject (reg : List ObjectTypeSchema) (v : Version) :
    ConfigObject → Except CodecError XNode
  | .mk tid ident vals ch =>
    match findSchema reg tid with
    | none => .error .unknownType
    | some sch =>
      match selectVersion sch.paramSpecsByVersion v with
      | none => .error .unsupportedVersion
      | some kv =>
        match checkValues sch kv.2 vals with
        | .error e => .error e
        | .ok _ =>
          match serializeParams kv.2 vals with
          | .error e => .error e
          | .ok pf =>
            match serializeForest reg v ch with
            | .error e => .error e
            | .ok cf =>
              match (if sch.isRepeated then
                       match ident with
                       | some i => Except.ok (some i)
                       | none => Except.error CodecError.missingIdentity
                     else Except.ok none) with
              | .error e => .error e
              | .ok attr =>
                match sch.xpathSegs with
                | [] => .error .malformedWireData
                | s :: rest => .ok (buildChain s rest attr none (xappend pf cf))
/-- Serialize a forest of sibling objects in tree order. -/
def serializeForest (reg : List ObjectTypeSchema) (v : Version) :
    ConfigForest → Except CodecError XForest
  | .nil => .ok .nil
  | .cons c cs =>
    match serializeObject reg v c with
    | .error e => .error e
    | .ok x =>
      match serializeForest reg v cs with
      | .error e => .error e
      | .ok xs => .ok (.cons x xs)
end

mutual
/-- Search one element for a wire path: the element must carry the first
segment as its tag; the remaining segments are searched among its
children. -/
def findPathN : List String → XNode → Option XNode
  | [], _ => none
  | [s], x => if x.tag == s then some x else none
  | s :: s2 :: rest, .elem t _ _ kids =>
    if t == s then findPathF (s2 :: rest) kids else none
/-- Search a forest for a wire path, trying each sibling in order. -/
def findPathF : List String → XForest → Option XNode
  | _, .nil => none
  | segs, .cons x xs =>
    match findPathN segs x with
    | some r => some r
    | none => findPathF segs xs
end

/-- Modelled from the spec: decode the element found at a wire path per
the expected value kind; presence of the element decides an existence
flag; known but malformed content is a hard failure. -/
def decodeLeaf (k : ValueKind) (x : XNode) : Except CodecError Value :=
  match k with
  | .exist => .ok (.bool true)
  | .str =>
    match x.text with
    | some s => .ok (.str s)
    | none => .error .malformedWireData
  | .encrypted =>
    match x.text with
    | some s => .ok (.str s)
    | none => .error .malformedWireData
  | .enum _ =>
    match x.text with
    | some s => .ok (.str s)
    | none => .error .malformedWireData
  | .yesno =>
    match x.text with
    | some s =>
      if s == "yes" then .ok (.bool true)
      else if s == "no" then .ok (.bool false)
      else .error .malformedWireData
    | none => .error .malformedWireData
  | .int =>
    match x.text with
    | some s =>
      match textToInt s with
      | some n => .ok (.int n)
      | none => .error .malformedWireData
    | none => .error .malformedWireData
  | .member =>
    match collectMembers x.children with
    | some ms => .ok (.list ms)
    | none => .error .malformedWireData

/-- Modelled from the spec: decode one expected parameter from a
fragment; absence of its wire path means logically unset, not an error. -/
def decodeParam (p : ParamSpec) (f : XForest) : Except CodecError (Option Value) :=
  match findPathF p.wirePath f with
  | none => .ok none
  | some node =>
    match decodeLeaf p.valueKind node with
    | .error e => .error e
    | .ok v => .ok (some v)

/-- Decode every expected parameter of the resolved set, keeping the set
ones in schema order. -/
def parseValues (specs : List ParamSpec) (f : XForest) :
    Except CodecError (List (String × Value)) :=
  match specs with
  | [] => .ok []
  | p :: ps =>
    match decodeParam p f with
    | .error e => .error e
    | .ok none => parseValues ps f
    | .ok (some v) =>
      match parseValues ps f with
      | .error e => .error e
      | .ok rest => .ok ((p.name, v) :: rest)

/-- First segment of each wire path of the resolved set; elements with
these tags belong to parameters, not to children. -/
def paramHeads (specs : List ParamSpec) : List String :=
  specs.filterMap (fun p => p.wirePath.head?)

/-- Schema of the first declared child type whose first fragment segment
equals the tag. -/
def childHeadType (reg : List ObjectTypeSchema) (cts : List String) (tag : String) :
    Option ObjectTypeSchema :=
  match cts with
  | [] => none
  | t :: ts =>
    match findSchema reg t with
    | none => childHeadType reg ts tag
    | some sch =>
      match sch.xpathSegs with
      | [] => childHeadType reg ts tag
      | s :: _ => if s == tag then some sch else childHeadType reg ts tag

mutual
/-- Parse one object from the chain of its fragment segments. -/
def parseNode (reg : List ObjectTypeSchema) (v : Version) (sch : ObjectTypeSchema) :
    List String → XNode → Except CodecError ConfigObject
  | [], _ => .error .malformedWireData
  | [s], .elem t a _ f =>
    if t == s then
      match selectVersion sch.paramSpecsByVersion v with
      | none => .error .unsupportedVersion
      | some kv =>
        match (if sch.isRepeated then
                 match a with
                 | some i => Except.ok (some i)
                 | none => Except.error CodecError.missingIdentity
               else Except.ok none) with
        | .error e => .error e
        | .ok ident =>
          match parseValues kv.2 f with
          | .error e => .error e
          | .ok vals =>
            match parseKids reg v (paramHeads kv.2) sch.childTypes f with
            | .error e => .error e
            | .ok kids => .ok (.mk sch.typeId ident vals kids)
    else .error .malformedWireData
  | s :: s2 :: rest, .elem t _ _ f =>
    if t == s then parseSeek reg v sch (s2 :: rest) f
    else .error .malformedWireData
/-- Find the first child carrying the next segment tag and keep
descending the fragment chain there. -/
def parseSeek (reg : List ObjectTypeSchema) (v : Version) (sch : ObjectTypeSchema) :
    List String → XForest → Except CodecError ConfigObject
  | _, .nil => .error .malformedWireData
  | segs, .cons x xs =>
    match segs with
    | [] => .error .malformedWireData
    | s :: _ =>
      if x.tag == s then parseNode reg v sch segs x
      else parseSeek reg v sch segs xs
/-- Walk the content forest in document order: skip parameter elements,
parse elements whose tag matches a declared child type, and pass over
unknown content. -/
def parseKids (reg : List ObjectTypeSchema) (v : Version) (ph : List String)
    (cts : List String) : XForest → Except CodecError ConfigForest
  | .nil => .ok .nil
  | .cons x xs =>
    if ph.contains x.tag then parseKids reg v ph cts xs
    else
      match childHeadType reg cts x.tag with
      | none => parseKids reg v ph cts xs
      | some csch =>
        match parseNode reg v csch csch.xpathSegs x with
        | .error e => .error e
        | .ok c =>
          match parseKids reg v ph cts xs with
          | .error e => .error e
          | .ok cs => .ok (.cons c cs)
end

/-- Modelled from the spec: parse an XML fragment against an expected
schema and target version. -/
def parseObject (reg : List ObjectTypeSchema) (v : Version)
    (sch : ObjectTypeSchema) (x : XNode) : Except CodecError ConfigObject :=
  parseNode reg v sch sch.xpathSegs x

mutual
/-- Restriction of a tree to the fields available at a version: values
whose name the resolved ParamSpec set does not declare are dropped. -/
def restrictObject (reg : List ObjectTypeSchema) (v : Version) :
    ConfigObject → ConfigObject
  | .mk tid ident vals ch =>
    match findSchema reg tid with
    | none => .mk tid ident vals (restrictForest reg v ch)
    | some sch =>
      match selectVersion sch.paramSpecsByVersion v with
      | none => .mk tid ident vals (restrictForest reg v ch)
      | some kv =>
        .mk tid ident (vals.filter (fun nv => kv.2.any (fun p => p.name == nv.1)))
          (restrictForest reg v ch)
/-- Restriction applied to each object of a forest. -/
def restrictForest (reg : List ObjectTypeSchema) (v : Version) :
    ConfigForest → ConfigForest
  | .nil => .nil
  | .cons c cs => .cons (restrictObject reg v c) (restrictForest reg v cs)
end

/-- Neither path is a prefix of the other; in particular they differ. -/
def nonPrefixPair (a b : List String) : Bool :=
  !(a.isPrefixOf b) && !(b.isPrefixOf a)

/-- Pairwise non-prefix condition over a list of wire paths. -/
def pairwiseNonPrefix : List (List String) → Bool
  | [] => true
  | p :: ps => ps.all (fun q => nonPrefixPair p q) && pairwiseNonPrefix ps

/-- Boolean duplicate-freedom of a string list. -/
def nodupB : List String → Bool
  | [] => true
  | s :: ss => !(ss.contains s) && nodupB ss

/-- First fragment segment of a registered type. -/
def headOfType (reg : List ObjectTypeSchema) (t : String) : Option String :=
  match findSchema reg t with
  | none => none
  | some sch => sch.xpathSegs.head?

/-- First fragment segments of the declared child types. -/
def childHeads (reg : List ObjectTypeSchema) (cts : List String) : List String :=
  cts.filterMap (headOfType reg)

/-- Every declared child type resolves to a schema with a nonempty
fragment, and the child head tags are pairwise distinct. -/
def childTypesOk (reg : List ObjectTypeSchema) (cts : List String) : Bool :=
  cts.all (fun t =>
    match findSchema reg t with
    | some sch => !sch.xpathSegs.isEmpty
    | none => false) && nodupB (childHeads reg cts)

/-- Wire paths are nonempty, disjoint from the child head tags at their
first segment, pairwise non-prefix, and parameter names are distinct. -/
def specsOk (specs : List ParamSpec) (chs : List String) : Bool :=
  specs.all (fun p =>
    match p.wirePath with
    | [] => false
    | s :: _ => !(chs.contains s)) &&
  pairwiseNonPrefix (specs.map (fun p => p.wirePath)) &&
  nodupB (specs.map (fun p => p.name))

/-- Value shapes that round-trip exactly: the value matches its declared
kind, enum values lie in the allowed set, and existence flags are not the
dropped false form. -/
def rtValueOk (k : ValueKind) (v : Value) : Bool :=
  match k, v with
  | .str, .str _ => true
  | .encrypted, .str _ => true
  | .enum allowed, .str s => allowed.contains s
  | .yesno, .bool _ => true
  | .int, .int _ => true
  | .member, .list _ => true
  | .exist, .bool b => b
  | _, _ => false

/-- The set values listed in resolved-schema order, one binding per
declared parameter. -/
def canonicalValues (specs : List ParamSpec) (vals : List (String × Value)) :
    List (String × Value) :=
  match specs with
  | [] => []
  | p :: ps =>
    match lookupValue vals p.name with
    | none => canonicalValues ps vals
    | some v => (p.name, v) :: canonicalValues ps vals

/-- Every child object's type is among the declared child types. -/
def forestTypesIn : ConfigForest → List String → Bool
  | .nil, _ => true
  | .cons c cs, cts => cts.contains c.typeId && forestTypesIn cs cts

mutual
/-- Well-formedness of an object for exact round-tripping at a version:
its type is registered and resolves at the version, identities agree with
repetition, wire paths and child head tags cannot capture one another,
values are canonically ordered and of round-trippable shapes, and all
children are recursively well formed. -/
def wfObject (reg : List ObjectTypeSchema) (v : Version) : ConfigObject → Bool
  | .mk tid ident vals ch =>
    match findSchema reg tid with
    | none => false
    | some sch =>
      match selectVersion sch.paramSpecsByVersion v with
      | none => false
      | some kv =>
        (sch.typeId == tid) &&
        !sch.xpathSegs.isEmpty &&
        (if sch.isRepeated then ident.isSome else ident.isNone) &&
        specsOk kv.2 (childHeads reg sch.childTypes) &&
        decide (vals = canonicalValues kv.2 vals) &&
        vals.all (fun nv =>
          match kv.2.find? (fun p => p.name == nv.1) with
          | some p => rtValueOk p.valueKind nv.2
          | none => false) &&
        childTypesOk reg sch.childTypes &&
        forestTypesIn ch sch.childTypes &&
        wfForest reg v ch
/-- Well-formedness of each object of a forest. -/
def wfForest (reg : List ObjectTypeSchema) (v : Version) : ConfigForest → Bool
  | .nil => true
  | .cons c cs => wfObject reg v c && wfForest reg v cs
end

/-! The schema catalog, embedded from panos/plugins.py.  Each definition
records the class of the same name: its xpath profile value split into
segments, whether its SUFFIX is ENTRY, its CHILDTYPES tuple, and its
VersionedParamPath declarations keyed by their version. -/

/-- The single version key used by every declaration in the catalog. -/
def v910 : Version := ⟨9, 1, 0⟩

/-- CloudServicesPlugin: xpath /plugins/cloud_services, SUFFIX None. -/
def CloudServicesPlugin : ObjectTypeSchema :=
  { typeId := "plugins.CloudServicesPlugin"
    xpathSegs := ["plugins", "cloud_services"]
    isRepeated := false
    childTypes := ["plugins.RemoteNetworks", "plugins.RoutingPreference"]
    paramSpecsByVersion :=
      [(v910, [⟨"all_traffic_to_dc", ["traffic-steering", "All-Traffic-To-DC"],
               .yesno, none⟩])] }

/-- AggBandwidth: xpath /agg-bandwidth, SUFFIX None. -/
def AggBandwidth : ObjectTypeSchema :=
  { typeId := "plugins.AggBandwidth"
    xpathSegs := ["agg-bandwidth"]
    isRepeated := false
    childTypes := ["plugins.Region"]
    paramSpecsByVersion := [(v910, [⟨"enabled", ["enabled"], .yesno, none⟩])] }

/-- Region: xpath /region, SUFFIX ENTRY. -/
def Region : ObjectTypeSchema :=
  { typeId := "plugins.Region"
    xpathSegs := ["region"]
    isRepeated := true
    childTypes := []
    paramSpecsByVersion :=
      [(v910, [⟨"allocated_bw", ["allocated-bw"], .int, none⟩,
               ⟨"spn_name_list", ["spn-name-list"], .member, none⟩])] }

/-- RemoteNetworks: xpath /remote-networks, SUFFIX None. -/
def RemoteNetworks : ObjectTypeSchema :=
  { typeId := "plugins.RemoteNetworks"
    xpathSegs := ["remote-networks"]
    isRepeated := false
    childTypes := ["plugins.RemoteNetwork", "plugins.AggBandwidth",
                   "plugins.DnsServers", "plugins.UdpQueries"]
    paramSpecsByVersion :=
      [(v910, [⟨"overlapped_subnets", ["overlapped-subnets"], .yesno, none⟩,
               ⟨"template_stack", ["template-stack"], .str, none⟩,
               ⟨"device_group", ["device-group"], .str, none⟩,
               ⟨"trusted_zones", ["trusted-zones"], .member, none⟩])] }

/-- InternalDnsMatch: xpath /internal-dns-match, SUFFIX ENTRY. -/
def InternalDnsMatch : ObjectTypeSchema :=
  { typeId := "plugins.InternalDnsMatch"
    xpathSegs := ["internal-dns-match"]
    isRepeated := true
    childTypes := ["plugins.PrimaryInternalDNSServer",
                   "plugins.SecondaryInternalDNSServer"]
    paramSpecsByVersion :=
      [(v910, [⟨"domain_list", ["domain-list"], .member, none⟩])] }

/-- DNSServerBase.add_dns_params: dns_server and use-cloud-default always,
same_as_internal only when requested by the subclass. -/
def add_dns_params (same_as_internal : Bool) : List ParamSpec :=
  [⟨"dns_server", ["dns-server"], .str, none⟩,
   ⟨"use-cloud-default", ["use_cloud_default"], .exist, none⟩] ++
  (if same_as_internal then
     [⟨"same_as_internal", ["same-as-internal"], .exist, none⟩]
   else [])

/-- PrimaryInternalDNSServer: xpath /primary, add_dns_params False. -/
def PrimaryInternalDNSServer : ObjectTypeSchema :=
  { typeId := "plugins.PrimaryInternalDNSServer"
    xpathSegs := ["primary"]
    isRepeated := false
    childTypes := []
    paramSpecsByVersion := [(v910, add_dns_params false)] }

/-- SecondaryInternalDNSServer: xpath /secondary, add_dns_params False. -/
def SecondaryInternalDNSServer : ObjectTypeSchema :=
  { typeId := "plugins.SecondaryInternalDNSServer"
    xpathSegs := ["secondary"]
    isRepeated := false
    childTypes := []
    paramSpecsByVersion := [(v910, add_dns_params false)] }

/-- PrimaryPublicDNSServer: xpath /primary-public-dns, add_dns_params True. -/
def PrimaryPublicDNSServer : ObjectTypeSchema :=
  { typeId := "plugins.PrimaryPublicDNSServer"
    xpathSegs := ["primary-public-dns"]
    isRepeated := false
    childTypes := []
    paramSpecsByVersion := [(v910, add_dns_params true)] }

/-- SecondaryPublicDNSServer: xpath /secondary-public-dns, add_dns_params True. -/
def SecondaryPublicDNSServer : ObjectTypeSchema :=
  { typeId := "plugins.SecondaryPublicDNSServer"
    xpathSegs := ["secondary-public-dns"]
    isRepeated := false
    childTypes := []
    paramSpecsByVersion := [(v910, add_dns_params true)] }

/-- DnsServers: xpath /dns-servers, SUFFIX ENTRY, no parameters. -/
def DnsServers : ObjectTypeSchema :=
  { typeId := "plugins.DnsServers"
    xpathSegs := ["dns-servers"]
    isRepeated := true
    childTypes := ["plugins.InternalDnsMatch", "plugins.PrimaryPublicDNSServer",
                   "plugins.SecondaryPublicDNSServer"]
    paramSpecsByVersion := [(v910, [])] }

/-- UdpQueries: xpath /udp-queries, SUFFIX None, parameters with declared
defaults 2 and 5. -/
def UdpQueries : ObjectTypeSchema :=
  { typeId := "plugins.UdpQueries"
    xpathSegs := ["udp-queries"]
    isRepeated := false
    childTypes := []
    paramSpecsByVersion :=
      [(v910, [⟨"interval", ["retries", "interval"], .int, some (.int 2)⟩,
               ⟨"attempts", ["retries", "attempts"], .int, some (.int 5)⟩])] }

/-- Bgp: xpath /protocol/bgp, SUFFIX None. -/
def Bgp : ObjectTypeSchema :=
  { typeId := "plugins.Bgp"
    xpathSegs := ["protocol", "bgp"]
    isRepeated := false
    childTypes := []
    paramSpecsByVersion :=
      [(v910, [⟨"enable", ["enable"], .yesno, none⟩,
               ⟨"originate_default_route", ["originate-default-route"], .yesno, none⟩,
               ⟨"summarize_mobile_user_routes", ["summarize-mobile-user-routes"], .yesno, none⟩,
               ⟨"do_not_export_routes", ["do-not-export-routes"], .yesno, none⟩,
               ⟨"peer_as", ["peer-as"], .int, none⟩,
               ⟨"peer_ip_address", ["peer-ip-address"], .str, none⟩,
               ⟨"local_ip_address", ["local-ip-address"], .str, none⟩,
               ⟨"secret", ["secret"], .encrypted, none⟩])] }

/-- BgpPeer: xpath /bgp-peer, SUFFIX None. -/
def BgpPeer : ObjectTypeSchema :=
  { typeId := "plugins.BgpPeer"
    xpathSegs := ["bgp-peer"]
    isRepeated := false
    childTypes := []
    paramSpecsByVersion :=
      [(v910, [⟨"same_as_primary", ["same-as-primary"], .yesno, none⟩,
               ⟨"peer_ip_address", ["peer-ip-address"], .str, none⟩,
               ⟨"local_ip_address", ["local-ip-address"], .str, none⟩,
               ⟨"secret", ["secret"], .encrypted, none⟩])] }

/-- RoutingPreference: xpath /routing-preference, SUFFIX None; both
parameters use the existence-flag vartype, and default carries a declared
default of True. -/
def RoutingPreference : ObjectTypeSchema :=
  { typeId := "plugins.RoutingPreference"
    xpathSegs := ["routing-preference"]
    isRepeated := false
    childTypes := []
    paramSpecsByVersion :=
      [(v910, [⟨"default", ["default"], .exist, some (.bool true)⟩,
               ⟨"hot_potato_routing", ["Hot-Potato-Routing"], .exist, none⟩])] }

/-- Link: xpath /link, SUFFIX ENTRY. -/
def Link : ObjectTypeSchema :=
  { typeId := "plugins.Link"
    xpathSegs := ["link"]
    isRepeated := true
    childTypes := ["plugins.Bgp"]
    paramSpecsByVersion :=
      [(v910, [⟨"ipsec_tunnel", ["ipsec-tunnel"], .str, none⟩])] }

/-- RemoteNetwork: xpath /onboarding, SUFFIX ENTRY; ecmp_load_balancing
declares the enumerated values tuple from the source. -/
def RemoteNetwork : ObjectTypeSchema :=
  { typeId := "plugins.RemoteNetwork"
    xpathSegs := ["onboarding"]
    isRepeated := true
    childTypes := ["plugins.Bgp", "plugins.BgpPeer", "plugins.Link"]
    paramSpecsByVersion :=
      [(v910, [⟨"subnets", ["subnets"], .member, none⟩,
               ⟨"region", ["region"], .str, none⟩,
               ⟨"license_type", ["license-type"], .str, none⟩,
               ⟨"ipsec_tunnel", ["ipsec-tunnel"], .str, none⟩,
               ⟨"secondary_wan_enabled", ["secondary-wan-enabled"], .yesno, none⟩,
               ⟨"ecmp_load_balancing", ["ecmp-load-balancing"],
                .enum ["enabled-with-symmetric-return", "disabled"], none⟩,
               ⟨"secondary_ipsec_tunnel", ["secondary-ipsec-tunnel"], .str, none⟩,
               ⟨"spn_name", ["spn-name"], .str, none⟩,
               ⟨"inbound_flow_over_pa_backbone", ["inbound-flow-over-pa-backbone"],
                .yesno, none⟩])] }

/-- The registry holding every object type declared in the catalog. -/
def catalogReg : List ObjectTypeSchema :=
  [CloudServicesPlugin, AggBandwidth, Region, RemoteNetworks, InternalDnsMatch,
   PrimaryInternalDNSServer, SecondaryInternalDNSServer, PrimaryPublicDNSServer,
   SecondaryPublicDNSServer, DnsServers, UdpQueries, Bgp, BgpPeer,
   RoutingPreference, Link, RemoteNetwork]

/-- Top-level tags of a forest. -/
def topTags : XForest → List String
  | .nil => []
  | .cons x xs => x.tag :: topTags xs

/-- Innermost segment of a nonempty path. -/
def lastSeg (s : String) : List String → String
  | [] => s
  | s2 :: r2 => lastSeg s2 r2

/-- Leaf content an encodable value produces, as a total function. -/
def leafContent (k : ValueKind) (v : Value) : Option String × XForest :=
  match encodeLeaf k v with
  | .ok (some c) => c
  | _ => (none, .nil)

/-- The forest of parameter chains a value list produces, in schema
order, as a total function. -/
def chainsOf (specs : List ParamSpec) (vals : List (String × Value)) : XForest :=
  match specs with
  | [] => .nil
  | p :: ps =>
    match lookupValue vals p.name with
    | none => chainsOf ps vals
    | some v =>
      match encodeParam p v with
      | .ok (some node) => .cons node (chainsOf ps vals)
      | _ => chainsOf ps vals

/-! Demonstration schemas and objects used by the claim statements. -/

/-- Modelled from the spec: a demonstration type whose single parameter is
introduced only at version 10.0.0, while the type itself exists at 9.1.0
with no parameters; used by the version-gating scenario of the spec. -/
def GatedDemo : ObjectTypeSchema :=
  { typeId := "demo.Gated"
    xpathSegs := ["gated"]
    isRepeated := false
    childTypes := []
    paramSpecsByVersion :=
      [(v910, []),
       (⟨10, 0, 0⟩, [⟨"newfield", ["newfield"], .str, none⟩])] }

/-- Registry holding only the demonstration type. -/
def demoReg : List ObjectTypeSchema := [GatedDemo]

/-- Object whose only set field exists only at version 10.0.0. -/
def gatedObj : ConfigObject :=
  .mk ("demo.Gated") none [("newfield", .str ("x"))] .nil

/-- Concrete tree from the catalog used as a round-trip witness: a
RemoteNetworks object holding an AggBandwidth with two Region entries and
a UdpQueries object. -/
def rtDemoTree : ConfigObject :=
  .mk ("plugins.RemoteNetworks") none
    [("overlapped_subnets", .bool true), ("trusted_zones", .list ["z1", "z2"])]
    (.cons (.mk ("plugins.AggBandwidth") none [("enabled", .bool true)]
      (.cons (.mk ("plugins.Region") (some "R1")
        [("allocated_bw", .int 500), ("spn_name_list", .list ["spn1", "spn2"])] .nil)
       (.cons (.mk ("plugins.Region") (some "R2") [("allocated_bw", .int 42)] .nil)
        .nil)))
     (.cons (.mk ("plugins.UdpQueries") none
        [("interval", .int 2), ("attempts", .int 5)] .nil)
      .nil))

/-- An empty AggBandwidth parent. -/
def aggEmpty : ConfigObject := .mk ("plugins.AggBandwidth") none [] .nil

/-- A second, distinct AggBandwidth parent. -/
def agg2Empty : ConfigObject :=
  .mk ("plugins.AggBandwidth") none [("enabled", .bool false)] .nil

/-- A Region entry named R. -/
def regionR : ConfigObject := .mk ("plugins.Region") (some "R") [] .nil

/-- The first parent after attaching the Region named R. -/
def aggWithR : ConfigObject :=
  .mk ("plugins.AggBandwidth") none [] (.cons regionR .nil)

/-- The second parent after attaching the Region named R. -/
def agg2WithR : ConfigObject :=
  .mk ("plugins.AggBandwidth") none [("enabled", .bool false)]
    (.cons regionR .nil)

/-- A Bgp object, not a permitted child of AggBandwidth. -/
def bgpObj : ConfigObject := .mk ("plugins.Bgp") none [] .nil

/-- A bare CloudServicesPlugin object. -/
def cspO : ConfigObject := .mk ("plugins.CloudServicesPlugin") none [] .nil

/-- A bare RemoteNetworks object. -/
def rnsO : ConfigObject := .mk ("plugins.RemoteNetworks") none [] .nil

/-- A CloudServicesPlugin object with values and a child, same projection
as cspO. -/
def cspValsO : ConfigObject :=
  .mk ("plugins.CloudServicesPlugin") none [("all_traffic_to_dc", .bool true)]
    (.cons rnsO .nil)

/-- A Region named R with values set, same projection as regionR. -/
def regionValsO : ConfigObject :=
  .mk ("plugins.Region") (some "R") [("allocated_bw", .int 7)] .nil

/-- A Region entry with a two-element member list. -/
def regionMemberObj : ConfigObject :=
  .mk ("plugins.Region") (some "R1")
    [("spn_name_list", .list ["10.0.0.0/8", "192.168.0.0/16"])] .nil

/-- A RemoteNetwork entry with a two-element subnets member list. -/
def rnSubnetsObj : ConfigObject :=
  .mk ("plugins.RemoteNetwork") (some "rn1")
    [("subnets", .list ["10.0.0.0/8", "192.168.0.0/16"])] .nil

/-- RoutingPreference with the default flag set to true. -/
def rpTrue : ConfigObject :=
  .mk ("plugins.RoutingPreference") none [("default", .bool true)] .nil

/-- RoutingPreference with the default flag set to false. -/
def rpFalse : ConfigObject :=
  .mk ("plugins.RoutingPreference") none [("default", .bool false)] .nil

/-- A primary internal DNS server using the cloud default flag. -/
def dnsCloudObj : ConfigObject :=
  .mk ("plugins.PrimaryInternalDNSServer") none
    [("use-cloud-default", .bool true)] .nil

/-- UdpQueries with both parameters explicitly set to their defaults. -/
def udpObj : ConfigObject :=
  .mk ("plugins.UdpQueries") none
    [("interval", .int 2), ("attempts", .int 5)] .nil

/-- UdpQueries with no parameters set. -/
def udpUnsetObj : ConfigObject := .mk ("plugins.UdpQueries") none [] .nil

/-- A RemoteNetwork entry whose only set value is the enum parameter. -/
def rnEcmp (s : String) : ConfigObject :=
  .mk ("plugins.RemoteNetwork") (some "rn1")
    [("ecmp_load_balancing", .str s)] .nil

/-- The 9.1.0 ParamSpec set of RemoteNetwork, read off the catalog. -/
def rnSpecs910 : List ParamSpec :=
  (RemoteNetwork.paramSpecsByVersion.headD (v910, [])).2

/-- The ecmp_load_balancing ParamSpec of RemoteNetwork. -/
def ecmpSpec : ParamSpec :=
  ⟨"ecmp_load_balancing", ["ecmp-load-balancing"],
   .enum ["enabled-with-symmetric-return", "disabled"], none⟩

/-- The five construction sites of the DNS server hierarchy: the abstract
base class and its four concrete subclasses. -/
inductive DnsClassId where
  | base
  | primaryInternal
  | secondaryInternal
  | primaryPublic
  | secondaryPublic
deriving DecidableEq, Repr

/-- The device error raised when the abstract class is instantiated. -/
inductive PanosError where
  | panDeviceError
deriving DecidableEq, Repr

/-- Constructor behavior of the DNS server hierarchy, embedded from the
source: DNSServerBase refuses direct instantiation with PanDeviceError,
and each concrete subclass registers its xpath profile and calls
add_dns_params, passing True only from the two public variants. -/
def dnsConstruct : DnsClassId → Except PanosError ObjectTypeSchema
  | .base => .error .panDeviceError
  | .primaryInternal => .ok PrimaryInternalDNSServer
  | .secondaryInternal => .ok SecondaryInternalDNSServer
  | .primaryPublic => .ok PrimaryPublicDNSServer
  | .secondaryPublic => .ok SecondaryPublicDNSServer

/-! Version order lemmas. -/

theorem Version.le_iff (a b : Version) : a.le b = true ↔
    a.major < b.major ∨ (a.major = b.major ∧
      (a.minor < b.minor ∨ (a.minor = b.minor ∧ a.patch ≤ b.patch))) := by
  simp only [Version.le, Bool.or_eq_true, Bool.and_eq_true, decide_eq_true_eq,
    beq_iff_eq]

theorem Version.le_refl (a : Version) : a.le a = true := by
  rw [Version.le_iff]; omega

theorem Version.le_trans {a b c : Version} (h1 : a.le b = true)
    (h2 : b.le c = true) : a.le c = true := by
  rw [Version.le_iff] at h1 h2 ⊢; omega

theorem Version.le_total (a b : Version) : a.le b = true ∨ b.le a = true := by
  rw [Version.le_iff, Version.le_iff]; omega

theorem Version.lt_iff_not_le (a b : Version) :
    a.lt b = true ↔ b.le a = false := by
  simp [Version.lt]

/-! VersionSelector lemmas. -/

theorem selectVersion_none_iff (m : List (Version × List ParamSpec)) (t : Version) :
    selectVersion m t = none ↔ ∀ kv ∈ m, kv.1.le t = false := by
  induction m with
  | nil => simp [selectVersion]
  | cons kv rest ih =>
    cases h : selectVersion rest t with
    | none =>
      simp only [selectVersion, h]
      cases hle : kv.1.le t with
      | true =>
        simp only [if_pos rfl]
        constructor
        · intro hc; cases hc
        · intro hall
          have := hall kv (List.mem_cons_self kv rest)
          rw [hle] at this; cases this
      | false =>
        rw [if_neg (show ¬(false = true) by decide)]
        constructor
        · intro _ kv2 hm
          rcases List.mem_cons.mp hm with h2 | h2
          · subst h2; exact hle
          · exact (ih.mp h) kv2 h2
        · intro _; rfl
    | some best =>
      simp only [selectVersion, h]
      have hbest : ¬ (∀ kv2 ∈ rest, kv2.1.le t = false) := by
        intro hall
        rw [← ih] at hall
        rw [h] at hall; cases hall
      constructor
      · intro hc
        split at hc <;> cases hc
      · intro hall
        exfalso
        exact hbest (fun kv2 hm => hall kv2 (List.mem_cons_of_mem kv hm))

theorem selectVersion_spec (m : List (Version × List ParamSpec)) (t : Version)
    (kv : Version × List ParamSpec) (h : selectVersion m t = some kv) :
    kv ∈ m ∧ kv.1.le t = true ∧
      ∀ kv2 ∈ m, kv2.1.le t = true → kv2.1.le kv.1 = true := by
  induction m generalizing kv with
  | nil => cases h
  | cons hd rest ih =>
    cases hr : selectVersion rest t with
    | none =>
      simp only [selectVersion, hr] at h
      have hrest := (selectVersion_none_iff rest t).mp hr
      cases hle : hd.1.le t with
      | true =>
        rw [hle, if_pos rfl] at h
        cases h
        refine ⟨List.mem_cons_self hd rest, hle, ?_⟩
        intro kv2 hm hta
        rcases List.mem_cons.mp hm with h2 | h2
        · subst h2; exact Version.le_refl _
        · rw [hrest kv2 h2] at hta; cases hta
      | false =>
        rw [hle, if_neg (show ¬(false = true) by decide)] at h
        cases h
    | some best =>
      simp only [selectVersion, hr] at h
      rcases ih best hr with ⟨hmem, hle, hmax⟩
      by_cases hc : (hd.1.le t && best.1.le hd.1) = true
      · rw [if_pos hc] at h
        cases h
        rcases Bool.and_eq_true_iff.mp hc with ⟨h1, h2⟩
        refine ⟨List.mem_cons_self _ _, h1, ?_⟩
        intro kv2 hm hle2
        rcases List.mem_cons.mp hm with h3 | h3
        · subst h3; exact Version.le_refl _
        · exact Version.le_trans (hmax kv2 h3 hle2) h2
      · rw [if_neg hc] at h
        cases h
        refine ⟨List.mem_cons_of_mem _ hmem, hle, ?_⟩
        intro kv2 hm hle2
        rcases List.mem_cons.mp hm with h3 | h3
        · subst h3
          rcases Bool.and_eq_true_iff.not.mp hc |> not_and_or.mp with h4 | h4
          · rw [hle2] at h4; cases h4 rfl
          · rcases Version.le_total kv2.1 kv.1 with h5 | h5
            · exact h5
            · rw [Bool.not_eq_true] at h4
              rw [h5] at h4; cases h4
        · exact hmax kv2 h3 hle2

theorem selectVersion_singleton (k : Version) (ps : List ParamSpec) (t : Version) :
    selectVersion [(k, ps)] t = if k.le t then some (k, ps) else none := rfl

/-! Decimal codec lemmas. -/

theorem undigitsLE_digitsLE : ∀ (fuel n : Nat), n ≤ fuel →
    undigitsLE (digitsLE fuel n) = n := by
  intro fuel
  induction fuel with
  | zero =>
    intro n hn
    have : n = 0 := Nat.le_zero.mp hn
    subst this; rfl
  | succ f ih =>
    intro n hn
    by_cases h0 : n = 0
    · subst h0; rfl
    · have hdiv : n / 10 ≤ f := by
        have : n / 10 < n := Nat.div_lt_self (Nat.pos_of_ne_zero h0) (by omega)
        omega
      simp only [digitsLE, if_neg h0, undigitsLE, ih (n / 10) hdiv]
      omega

theorem digitsLE_lt_ten : ∀ (fuel n d : Nat), d ∈ digitsLE fuel n → d < 10 := by
  intro fuel
  induction fuel with
  | zero => intro n d h; cases h
  | succ f ih =>
    intro n d h
    by_cases h0 : n = 0
    · subst h0; simp [digitsLE] at h
    · simp only [digitsLE, if_neg h0] at h
      rcases List.mem_cons.mp h with h1 | h1
      · subst h1; exact Nat.mod_lt _ (by omega)
      · exact ih _ _ h1

theorem charDigit_digitChar : ∀ d, d < 10 → charDigit (digitChar d) = some d := by
  decide

theorem digitChar_ne_minus : ∀ d, d < 10 → (digitChar d == Char.ofNat 45) = false := by
  decide

theorem digitsParse_map_digitChar : ∀ (ds : List Nat), (∀ d ∈ ds, d < 10) →
    digitsParse (ds.map digitChar) = some ds := by
  intro ds
  induction ds with
  | nil => intro _; rfl
  | cons d rest ih =>
    intro h
    have hd : d < 10 := h d (List.mem_cons_self d rest)
    simp only [List.map, digitsParse, charDigit_digitChar d hd,
      ih (fun e he => h e (List.mem_cons_of_mem d he))]

theorem digitsLE_ne_nil (m : Nat) (h0 : m ≠ 0) : digitsLE m m ≠ [] := by
  rcases (show ∃ f, m = f + 1 from ⟨m - 1, by omega⟩) with ⟨f, hf⟩
  conv_lhs => rw [hf]
  simp [digitsLE, h0]

theorem charsToNat_natChars (m : Nat) : charsToNat (natChars m) = some m := by
  by_cases h0 : m = 0
  · subst h0; decide
  · have hlt : ∀ d ∈ (digitsLE m m).reverse, d < 10 :=
      fun d hd => digitsLE_lt_ten m m d (List.mem_reverse.mp hd)
    have hrevne : (digitsLE m m).reverse ≠ [] :=
      fun hc => digitsLE_ne_nil m h0 (List.reverse_eq_nil_iff.mp hc)
    rcases List.exists_cons_of_ne_nil hrevne with ⟨d, ds, hds⟩
    have hparse : digitsParse ((d :: ds).map digitChar) = some (d :: ds) :=
      digitsParse_map_digitChar (d :: ds) (by rw [← hds]; exact hlt)
    simp only [natChars, if_neg h0, hds]
    show (digitsParse ((d :: ds).map digitChar)).map (fun l => undigitsLE l.reverse)
      = some m
    rw [hparse]
    show some (undigitsLE (d :: ds).reverse) = some m
    rw [← hds, List.reverse_reverse, undigitsLE_digitsLE m m (Nat.le_refl m)]

theorem natChars_ne_nil (m : Nat) : natChars m ≠ [] := by
  by_cases h0 : m = 0
  · subst h0; decide
  · simp only [natChars, if_neg h0]
    intro hc
    have h1 := List.map_eq_nil_iff.mp hc
    exact digitsLE_ne_nil m h0 (List.reverse_eq_nil_iff.mp h1)

theorem natChars_head_ne_minus (m : Nat) (c : Char) (cs : List Char)
    (h : natChars m = c :: cs) : (c == Char.ofNat 45) = false := by
  by_cases h0 : m = 0
  · subst h0
    simp only [natChars, if_pos rfl] at h
    cases h
    decide
  · simp only [natChars, if_neg h0] at h
    cases hrev : (digitsLE m m).reverse with
    | nil => rw [hrev] at h; cases h
    | cons d ds =>
      rw [hrev] at h
      simp only [List.map] at h
      have hd : d < 10 := digitsLE_lt_ten m m d (List.mem_reverse.mp (by rw [hrev]; exact List.mem_cons_self d ds))
      cases h
      exact digitChar_ne_minus d hd

theorem textToInt_intToText (n : Int) : textToInt (intToText n) = some n := by
  by_cases hneg : n < 0
  · simp only [intToText, intChars, if_pos hneg, textToInt]
    simp only [beq_self_eq_true, if_pos rfl]
    rw [charsToNat_natChars]
    show some (-((n.natAbs : Nat) : Int)) = some n
    simp only [Option.some.injEq]
    omega
  · simp only [intToText, intChars, if_neg hneg, textToInt]
    rcases List.exists_cons_of_ne_nil (natChars_ne_nil n.toNat) with ⟨c, cs, hcs⟩
    simp only [hcs]
    rw [natChars_head_ne_minus n.toNat c cs hcs]
    rw [if_neg (show ¬(false = true) by decide)]
    rw [← hcs, charsToNat_natChars]
    show some (((n.toNat : Nat) : Int)) = some n
    simp only [Option.some.injEq]
    omega

/-! Leaf encode and decode lemmas. -/

theorem collectMembers_membersForest : ∀ (l : List String),
    collectMembers (membersForest l) = some l
  | [] => rfl
  | m :: ms => by
    show collectMembers (.cons (.elem ("member") none (some m) .nil) (membersForest ms))
      = some (m :: ms)
    simp [collectMembers, collectMembers_membersForest ms]

theorem encodeLeaf_rt (k : ValueKind) (v : Value) (h : rtValueOk k v = true) :
    ∃ txt kids, encodeLeaf k v = .ok (some (txt, kids)) ∧
      ∀ tag attr, decodeLeaf k (.elem tag attr txt kids) = .ok v := by
  cases k with
  | str =>
    cases v with
    | str s => exact ⟨some s, .nil, rfl, fun tag attr => rfl⟩
    | bool b => cases h
    | int n => cases h
    | list l => cases h
  | encrypted =>
    cases v with
    | str s => exact ⟨some s, .nil, rfl, fun tag attr => rfl⟩
    | bool b => cases h
    | int n => cases h
    | list l => cases h
  | enum allowed =>
    cases v with
    | str s =>
      refine ⟨some s, .nil, ?_, fun tag attr => rfl⟩
      simp only [rtValueOk] at h
      simp only [encodeLeaf, if_pos h]
    | bool b => cases h
    | int n => cases h
    | list l => cases h
  | yesno =>
    cases v with
    | bool b =>
      cases b with
      | true => exact ⟨some ("yes"), .nil, rfl, fun tag attr => rfl⟩
      | false => exact ⟨some ("no"), .nil, rfl, fun tag attr => rfl⟩
    | str s => cases h
    | int n => cases h
    | list l => cases h
  | int =>
    cases v with
    | int n =>
      refine ⟨some (intToText n), .nil, rfl, fun tag attr => ?_⟩
      simp only [decodeLeaf, XNode.text, textToInt_intToText]
    | str s => cases h
    | bool b => cases h
    | list l => cases h
  | member =>
    cases v with
    | list l =>
      refine ⟨none, membersForest l, rfl, fun tag attr => ?_⟩
      simp only [decodeLeaf, XNode.children, collectMembers_membersForest]
    | str s => cases h
    | bool b => cases h
    | int n => cases h
  | exist =>
    cases v with
    | bool b =>
      cases b with
      | true => exact ⟨none, .nil, rfl, fun tag attr => rfl⟩
      | false => cases h
    | str s => cases h
    | int n => cases h
    | list l => cases h

/-! Wire path search lemmas. -/

theorem xappend_cons (x : XNode) (xs g : XForest) :
    xappend (.cons x xs) g = .cons x (xappend xs g) := rfl

theorem topTags_xappend : ∀ (f g : XForest),
    topTags (xappend f g) = topTags f ++ topTags g
  | .nil, _ => rfl
  | .cons x xs, g => by
    simp only [xappend, topTags, topTags_xappend xs g, List.cons_append]

theorem findPathF_append : ∀ (segs : List String) (f g : XForest),
    findPathF segs (xappend f g) =
      match findPathF segs f with
      | some r => some r
      | none => findPathF segs g
  | _, .nil, _ => rfl
  | segs, .cons x xs, g => by
    simp only [xappend, findPathF]
    cases findPathN segs x with
    | some r => rfl
    | none => exact findPathF_append segs xs g

theorem findPathN_tag_ne (s : String) (rest : List String) (x : XNode)
    (h : (x.tag == s) = false) : findPathN (s :: rest) x = none := by
  cases x with
  | elem t a txt kids =>
    simp only [XNode.tag] at h
    cases rest with
    | nil =>
      simp only [findPathN, XNode.tag]
      simp [h]
    | cons s2 r2 =>
      simp only [findPathN]
      simp [h]

theorem findPathF_no_tag : ∀ (segs : List String) (f : XForest),
    (∀ x ∈ topTags f, segs.head? ≠ some x) → findPathF segs f = none
  | _, .nil, _ => rfl
  | segs, .cons x xs, h => by
    have htail := findPathF_no_tag segs xs (fun y hy => h y (List.mem_cons_of_mem _ hy))
    have hhead : findPathN segs x = none := by
      cases segs with
      | nil => cases x; rfl
      | cons s rest =>
        apply findPathN_tag_ne
        cases hbeq : x.tag == s with
        | false => rfl
        | true =>
          exfalso
          exact h x.tag (List.mem_cons_self _ _)
            (show (s :: rest).head? = some x.tag by rw [eq_of_beq hbeq]; rfl)
    simp only [findPathF, hhead]
    exact htail

theorem buildChain_tag (s : String) (rest : List String) (attr txt kids) :
    (buildChain s rest attr txt kids).tag = s := by
  cases rest <;> rfl

theorem findPathN_buildChain (s : String) (rest : List String) (attr txt kids) :
    findPathN (s :: rest) (buildChain s rest attr txt kids) =
      some (.elem (lastSeg s rest) attr txt kids) := by
  induction rest generalizing s with
  | nil =>
    simp [buildChain, findPathN, XNode.tag, lastSeg]
  | cons s2 r2 ih =>
    simp only [buildChain, findPathN, beq_self_eq_true, if_pos rfl, lastSeg]
    simp [findPathF, ih s2]

theorem findPathN_buildChain_ne (pp : List String) (q : String) (qr : List String)
    (attr txt kids) (hp : pp ≠ [])
    (h1 : pp.isPrefixOf (q :: qr) = false)
    (h2 : (q :: qr).isPrefixOf pp = false) :
    findPathN pp (buildChain q qr attr txt kids) = none := by
  induction qr generalizing pp q with
  | nil =>
    cases pp with
    | nil => exact absurd rfl hp
    | cons s pr =>
      by_cases hsq : s = q
      · subst hsq
        cases pr with
        | nil => simp [List.isPrefixOf] at h1
        | cons s2 pr2 => simp [List.isPrefixOf] at h2
      · have hcond : ¬((q == s) = true) :=
          fun hc => hsq (eq_of_beq hc).symm
        cases pr with
        | nil =>
          simp only [buildChain, findPathN, XNode.tag]
          rw [if_neg hcond]
        | cons s2 pr2 =>
          simp only [buildChain, findPathN]
          rw [if_neg hcond]
  | cons q2 qr2 ih =>
    cases pp with
    | nil => exact absurd rfl hp
    | cons s pr =>
      by_cases hsq : s = q
      · subst hsq
        cases pr with
        | nil => simp [List.isPrefixOf] at h1
        | cons s2 pr2 =>
          simp only [buildChain, findPathN, beq_self_eq_true, if_pos rfl]
          simp only [findPathF]
          have h1t : (s2 :: pr2).isPrefixOf (q2 :: qr2) = false := by
            simp only [List.isPrefixOf, beq_self_eq_true, Bool.true_and] at h1
            exact h1
          have h2t : (q2 :: qr2).isPrefixOf (s2 :: pr2) = false := by
            simp only [List.isPrefixOf, beq_self_eq_true, Bool.true_and] at h2
            exact h2
          rw [ih (s2 :: pr2) q2 (by simp) h1t h2t]
          simp
      · have hcond : ¬((q == s) = true) :=
          fun hc => hsq (eq_of_beq hc).symm
        cases pr with
        | nil =>
          simp only [buildChain, findPathN, XNode.tag]
          rw [if_neg hcond]
        | cons s2 pr2 =>
          simp only [buildChain, findPathN]
          rw [if_neg hcond]

/-! Parameter chain lemmas. -/

theorem leafContent_eq (k : ValueKind) (v : Value) (c : Option String × XForest)
    (h : encodeLeaf k v = .ok (some c)) : leafContent k v = c := by
  simp only [leafContent, h]

theorem encodeParam_ok_of_rt (p : ParamSpec) (v : Value) (s : String)
    (rest : List String) (hpath : p.wirePath = s :: rest)
    (h : rtValueOk p.valueKind v = true) :
    encodeParam p v = .ok (some (buildChain s rest none
      (leafContent p.valueKind v).1 (leafContent p.valueKind v).2)) := by
  rcases encodeLeaf_rt p.valueKind v h with ⟨txt, kids, henc, _⟩
  rw [leafContent_eq p.valueKind v (txt, kids) henc]
  simp only [encodeParam, hpath, henc]

theorem decodeLeaf_leafContent (p : ParamSpec) (v : Value)
    (h : rtValueOk p.valueKind v = true) (tag : String) (attr : Option String) :
    decodeLeaf p.valueKind (.elem tag attr (leafContent p.valueKind v).1
      (leafContent p.valueKind v).2) = .ok v := by
  rcases encodeLeaf_rt p.valueKind v h with ⟨txt, kids, henc, hdec⟩
  rw [leafContent_eq p.valueKind v (txt, kids) henc]
  exact hdec tag attr

theorem serializeParams_eq_chainsOf (specs : List ParamSpec)
    (vals : List (String × Value))
    (h : ∀ p ∈ specs, ∀ v, lookupValue vals p.name = some v →
      ∃ node, encodeParam p v = .ok (some node)) :
    serializeParams specs vals = .ok (chainsOf specs vals) := by
  induction specs with
  | nil => rfl
  | cons p ps ih =>
    have htail := ih (fun q hq => h q (List.mem_cons_of_mem _ hq))
    simp only [serializeParams, chainsOf]
    cases hl : lookupValue vals p.name with
    | none => exact htail
    | some v =>
      rcases h p (List.mem_cons_self _ _) v hl with ⟨node, hn⟩
      simp only [hn, htail]

theorem paramHeads_cons (p : ParamSpec) (ps : List ParamSpec) (s : String)
    (rest : List String) (hpath : p.wirePath = s :: rest) :
    paramHeads (p :: ps) = s :: paramHeads ps := by
  simp only [paramHeads, List.filterMap, hpath, List.head?]

theorem encodeParam_ok_shape (p : ParamSpec) (v : Value) (node : XNode)
    (he : encodeParam p v = .ok (some node)) :
    ∃ s rest txt kids, p.wirePath = s :: rest ∧
      node = buildChain s rest none txt kids ∧
      encodeLeaf p.valueKind v = .ok (some (txt, kids)) := by
  simp only [encodeParam] at he
  cases hp : p.wirePath with
  | nil => rw [hp] at he; cases he
  | cons s rest =>
    rw [hp] at he
    cases hel : encodeLeaf p.valueKind v with
    | error e => rw [hel] at he; cases he
    | ok oc =>
      cases oc with
      | none => rw [hel] at he; cases he
      | some c =>
        rw [hel] at he
        cases he
        exact ⟨s, rest, c.1, c.2, rfl, rfl, rfl⟩

theorem mem_paramHeads_tail (p : ParamSpec) (ps : List ParamSpec) (u : String)
    (h : u ∈ paramHeads ps) : u ∈ paramHeads (p :: ps) := by
  simp only [paramHeads] at h ⊢
  rcases List.mem_filterMap.mp h with ⟨a, ha, hfa⟩
  exact List.mem_filterMap.mpr ⟨a, List.mem_cons_of_mem _ ha, hfa⟩

theorem chainsOf_cons_none (p : ParamSpec) (ps : List ParamSpec) (vals)
    (hl : lookupValue vals p.name = none) :
    chainsOf (p :: ps) vals = chainsOf ps vals := by
  simp only [chainsOf, hl]

theorem chainsOf_cons_some (p : ParamSpec) (ps : List ParamSpec) (vals v node)
    (hl : lookupValue vals p.name = some v)
    (he : encodeParam p v = .ok (some node)) :
    chainsOf (p :: ps) vals = .cons node (chainsOf ps vals) := by
  simp only [chainsOf, hl, he]

theorem chainsOf_cons_err (p : ParamSpec) (ps : List ParamSpec) (vals v e)
    (hl : lookupValue vals p.name = some v)
    (he : encodeParam p v = .error e) :
    chainsOf (p :: ps) vals = chainsOf ps vals := by
  simp only [chainsOf, hl, he]

theorem chainsOf_cons_oknone (p : ParamSpec) (ps : List ParamSpec) (vals v)
    (hl : lookupValue vals p.name = some v)
    (he : encodeParam p v = .ok none) :
    chainsOf (p :: ps) vals = chainsOf ps vals := by
  simp only [chainsOf, hl, he]

theorem topTags_chainsOf (specs : List ParamSpec) (vals : List (String × Value)) :
    ∀ t ∈ topTags (chainsOf specs vals), t ∈ paramHeads specs := by
  induction specs with
  | nil => intro t ht; cases ht
  | cons p ps ih =>
    intro t ht
    cases hl : lookupValue vals p.name with
    | none =>
      rw [chainsOf_cons_none p ps vals hl] at ht
      exact mem_paramHeads_tail p ps t (ih t ht)
    | some v =>
      cases he : encodeParam p v with
      | error e =>
        rw [chainsOf_cons_err p ps vals v e hl he] at ht
        exact mem_paramHeads_tail p ps t (ih t ht)
      | ok onode =>
        cases onode with
        | none =>
          rw [chainsOf_cons_oknone p ps vals v hl he] at ht
          exact mem_paramHeads_tail p ps t (ih t ht)
        | some node =>
          rw [chainsOf_cons_some p ps vals v node hl he] at ht
          simp only [topTags] at ht
          rcases List.mem_cons.mp ht with h1 | h1
          · rcases encodeParam_ok_shape p v node he with
              ⟨s, rest, txt, kids, hp, hnode, _⟩
            rw [h1, hnode, buildChain_tag, paramHeads_cons p ps s rest hp]
            exact List.mem_cons_self _ _
          · exact mem_paramHeads_tail p ps t (ih t h1)

theorem nonPrefixPair_unfold (a b : List String) (h : nonPrefixPair a b = true) :
    a.isPrefixOf b = false ∧ b.isPrefixOf a = false := by
  simp only [nonPrefixPair, Bool.and_eq_true, Bool.not_eq_true'] at h
  exact h

theorem pairwiseNonPrefix_cons (q : ParamSpec) (qs : List ParamSpec)
    (h : pairwiseNonPrefix ((q :: qs).map (fun r => r.wirePath)) = true) :
    (∀ r ∈ qs, nonPrefixPair q.wirePath r.wirePath = true) ∧
      pairwiseNonPrefix (qs.map (fun r => r.wirePath)) = true := by
  simp only [List.map, pairwiseNonPrefix, Bool.and_eq_true, List.all_eq_true] at h
  refine ⟨?_, h.2⟩
  intro r hr
  exact h.1 r.wirePath (List.mem_map.mpr ⟨r, hr, rfl⟩)

theorem findPathF_chainsOf_miss (vals : List (String × Value)) (C : XForest)
    (pp : List String) (hpp : pp ≠ []) :
    ∀ (specs : List ParamSpec),
    findPathF pp C = none →
    (∀ q ∈ specs, q.wirePath ≠ []) →
    (∀ q ∈ specs, nonPrefixPair pp q.wirePath = true) →
    findPathF pp (xappend (chainsOf specs vals) C) = none
  | [], hC, _, _ => hC
  | q :: qs, hC, hnp, hmiss => by
    have htail := findPathF_chainsOf_miss vals C pp hpp qs hC
      (fun r hr => hnp r (List.mem_cons_of_mem _ hr))
      (fun r hr => hmiss r (List.mem_cons_of_mem _ hr))
    cases hl : lookupValue vals q.name with
    | none => rw [chainsOf_cons_none q qs vals hl]; exact htail
    | some v =>
      cases he : encodeParam q v with
      | error e => rw [chainsOf_cons_err q qs vals v e hl he]; exact htail
      | ok onode =>
        cases onode with
        | none => rw [chainsOf_cons_oknone q qs vals v hl he]; exact htail
        | some node =>
          rw [chainsOf_cons_some q qs vals v node hl he]
          rcases encodeParam_ok_shape q v node he with
            ⟨s, rest, txt, kids, hqp, hnode, _⟩
          have hpair := hmiss q (List.mem_cons_self _ _)
          rw [hqp] at hpair
          rcases nonPrefixPair_unfold pp (s :: rest) hpair with ⟨h1, h2⟩
          have hmissN : findPathN pp node = none := by
            rw [hnode]
            exact findPathN_buildChain_ne pp s rest none txt kids hpp h1 h2
          show findPathF pp (.cons node (xappend (chainsOf qs vals) C)) = none
          simp only [findPathF, hmissN]
          exact htail

theorem nonPrefixPair_symm (a b : List String)
    (h : nonPrefixPair a b = true) : nonPrefixPair b a = true := by
  rcases nonPrefixPair_unfold a b h with ⟨h1, h2⟩
  simp only [nonPrefixPair, Bool.and_eq_true, Bool.not_eq_true', h1, h2]
  exact ⟨trivial, trivial⟩

theorem pairwise_pairs_of_mem (p : ParamSpec) : ∀ (specs : List ParamSpec),
    p ∈ specs → pairwiseNonPrefix (specs.map (fun q => q.wirePath)) = true →
    ∀ q ∈ specs, q ≠ p → nonPrefixPair p.wirePath q.wirePath = true := by
  intro specs
  induction specs with
  | nil => intro hmem; cases hmem
  | cons r rs ih =>
    intro hmem hpair q hq hne
    rcases pairwiseNonPrefix_cons r rs hpair with ⟨hr, hpair2⟩
    rcases List.mem_cons.mp hmem with hp1 | hp1
    · rcases List.mem_cons.mp hq with hq1 | hq1
      · exfalso; rw [hq1, ← hp1] at hne; exact hne rfl
      · rw [← hp1] at hr
        exact hr q hq1
    · rcases List.mem_cons.mp hq with hq1 | hq1
      · rw [hq1]
        exact nonPrefixPair_symm _ _ (hr p hp1)
      · exact ih hp1 hpair2 q hq1 hne

theorem findPathF_chainsOf_unset (vals : List (String × Value)) (C : XForest)
    (p : ParamSpec) (hpne : p.wirePath ≠ []) :
    ∀ (specs : List ParamSpec),
    lookupValue vals p.name = none →
    findPathF p.wirePath C = none →
    (∀ q ∈ specs, q ≠ p → nonPrefixPair p.wirePath q.wirePath = true) →
    findPathF p.wirePath (xappend (chainsOf specs vals) C) = none
  | [], _, hC, _ => hC
  | q :: qs, hl, hC, hmiss => by
    have htail := findPathF_chainsOf_unset vals C p hpne qs hl hC
      (fun r hr hner => hmiss r (List.mem_cons_of_mem _ hr) hner)
    cases hlq : lookupValue vals q.name with
    | none => rw [chainsOf_cons_none q qs vals hlq]; exact htail
    | some w =>
      have hne : q ≠ p := by
        intro hc
        rw [hc, hl] at hlq
        cases hlq
      cases he : encodeParam q w with
      | error e => rw [chainsOf_cons_err q qs vals w e hlq he]; exact htail
      | ok onode =>
        cases onode with
        | none => rw [chainsOf_cons_oknone q qs vals w hlq he]; exact htail
        | some node =>
          rw [chainsOf_cons_some q qs vals w node hlq he]
          rcases encodeParam_ok_shape q w node he with
            ⟨s, rest, txt, kids, hqp, hnode, _⟩
          have hpairpq := hmiss q (List.mem_cons_self _ _) hne
          rw [hqp] at hpairpq
          rcases nonPrefixPair_unfold p.wirePath (s :: rest) hpairpq with ⟨h1, h2⟩
          have hmissN : findPathN p.wirePath node = none := by
            rw [hnode]
            exact findPathN_buildChain_ne p.wirePath s rest none txt kids hpne h1 h2
          show findPathF p.wirePath (.cons node (xappend (chainsOf qs vals) C)) = none
          simp only [findPathF, hmissN]
          exact htail

theorem findPathF_chainsOf_hit (vals : List (String × Value)) (C : XForest)
    (p : ParamSpec) (v : Value) (s : String) (rest : List String)
    (hpath : p.wirePath = s :: rest)
    (hl : lookupValue vals p.name = some v)
    (hrt : rtValueOk p.valueKind v = true) :
    ∀ (specs : List ParamSpec),
    p ∈ specs →
    (∀ q ∈ specs, q ≠ p → nonPrefixPair p.wirePath q.wirePath = true) →
    findPathF p.wirePath (xappend (chainsOf specs vals) C) =
      some (.elem (lastSeg s rest) none (leafContent p.valueKind v).1
        (leafContent p.valueKind v).2)
  | [], hmem, _ => by cases hmem
  | q :: qs, hmem, hmiss => by
    by_cases hqp : q = p
    · subst hqp
      have he := encodeParam_ok_of_rt q v s rest hpath hrt
      rw [chainsOf_cons_some q qs vals v _ hl he]
      show findPathF q.wirePath
        (.cons (buildChain s rest none (leafContent q.valueKind v).1
          (leafContent q.valueKind v).2) (xappend (chainsOf qs vals) C)) = _
      simp only [findPathF, hpath, findPathN_buildChain]
    · have hmem2 : p ∈ qs := by
        rcases List.mem_cons.mp hmem with h1 | h1
        · exact absurd h1.symm hqp
        · exact h1
      have htail := findPathF_chainsOf_hit vals C p v s rest hpath hl hrt qs hmem2
        (fun r hr hner => hmiss r (List.mem_cons_of_mem _ hr) hner)
      cases hlq : lookupValue vals q.name with
      | none => rw [chainsOf_cons_none q qs vals hlq]; exact htail
      | some w =>
        cases he : encodeParam q w with
        | error e => rw [chainsOf_cons_err q qs vals w e hlq he]; exact htail
        | ok onode =>
          cases onode with
          | none => rw [chainsOf_cons_oknone q qs vals w hlq he]; exact htail
          | some node =>
            rw [chainsOf_cons_some q qs vals w node hlq he]
            rcases encodeParam_ok_shape q w node he with
              ⟨s2, rest2, txt, kids, hqp2, hnode, _⟩
            have hpairpq := hmiss q (List.mem_cons_self _ _) hqp
            rw [hqp2] at hpairpq
            rcases nonPrefixPair_unfold p.wirePath (s2 :: rest2) hpairpq with ⟨h1, h2⟩
            have hppne : p.wirePath ≠ [] := by rw [hpath]; simp
            have hmissN : findPathN p.wirePath node = none := by
              rw [hnode]
              exact findPathN_buildChain_ne p.wirePath s2 rest2 none txt kids hppne h1 h2
            show findPathF p.wirePath (.cons node (xappend (chainsOf qs vals) C)) = _
            simp only [findPathF, hmissN]
            exact htail

theorem decodeParam_chains (vals : List (String × Value)) (C : XForest)
    (p : ParamSpec) (specs : List ParamSpec)
    (hmem : p ∈ specs)
    (hnp : ∀ q ∈ specs, q.wirePath ≠ [])
    (hpair : pairwiseNonPrefix (specs.map (fun q => q.wirePath)) = true)
    (hval : ∀ q ∈ specs, ∀ w, lookupValue vals q.name = some w →
      rtValueOk q.valueKind w = true)
    (hC : findPathF p.wirePath C = none) :
    decodeParam p (xappend (chainsOf specs vals) C) = .ok (lookupValue vals p.name) := by
  have hmiss := pairwise_pairs_of_mem p specs hmem hpair
  have hpne := hnp p hmem
  cases hl : lookupValue vals p.name with
  | none =>
    have hnone := findPathF_chainsOf_unset vals C p hpne specs hl hC hmiss
    simp only [decodeParam, hnone]
  | some v =>
    have hrt := hval p hmem v hl
    rcases (show ∃ s rest, p.wirePath = s :: rest by
      cases hp : p.wirePath with
      | nil => exact absurd hp hpne
      | cons s rest => exact ⟨s, rest, rfl⟩) with ⟨s, rest, hpath⟩
    have hhit := findPathF_chainsOf_hit vals C p v s rest hpath hl hrt specs hmem hmiss
    simp only [decodeParam, hhit, decodeLeaf_leafContent p v hrt]

theorem parseValues_of_decode (vals : List (String × Value)) (F : XForest) :
    ∀ (iter : List ParamSpec),
    (∀ p ∈ iter, decodeParam p F = .ok (lookupValue vals p.name)) →
    parseValues iter F = .ok (canonicalValues iter vals)
  | [], _ => rfl
  | p :: ps, h => by
    have hd := h p (List.mem_cons_self _ _)
    have htail := parseValues_of_decode vals F ps
      (fun q hq => h q (List.mem_cons_of_mem _ hq))
    cases hl : lookupValue vals p.name with
    | none =>
      rw [hl] at hd
      simp only [parseValues, hd, canonicalValues, hl, htail]
    | some v =>
      rw [hl] at hd
      simp only [parseValues, hd, htail, canonicalValues, hl]

theorem parseKids_skip (reg : List ObjectTypeSchema) (v : Version)
    (ph cts : List String) : ∀ (P C : XForest),
    (∀ t ∈ topTags P, ph.contains t = true) →
    parseKids reg v ph cts (xappend P C) = parseKids reg v ph cts C
  | .nil, _, _ => rfl
  | .cons x xs, C, h => by
    have hx := h x.tag (List.mem_cons_self _ _)
    have htail := parseKids_skip reg v ph cts xs C
      (fun t ht => h t (List.mem_cons_of_mem _ ht))
    show parseKids reg v ph cts (.cons x (xappend xs C)) = _
    simp only [parseKids, hx, if_pos rfl]
    exact htail

theorem nodupB_cons (x : String) (l : List String) (h : nodupB (x :: l) = true) :
    l.contains x = false ∧ nodupB l = true := by
  simp only [nodupB, Bool.and_eq_true, Bool.not_eq_true'] at h
  exact h

theorem mem_childHeads (reg : List ObjectTypeSchema) (cts : List String)
    (t : String) (s : String) (hmem : t ∈ cts)
    (hhead : headOfType reg t = some s) : s ∈ childHeads reg cts := by
  simp only [childHeads]
  exact List.mem_filterMap.mpr ⟨t, hmem, hhead⟩

theorem childHeads_cons_some (reg : List ObjectTypeSchema) (ct : String)
    (cts : List String) (s : String) (h : headOfType reg ct = some s) :
    childHeads reg (ct :: cts) = s :: childHeads reg cts := by
  simp only [childHeads, List.filterMap, h]

theorem childHeads_cons_none (reg : List ObjectTypeSchema) (ct : String)
    (cts : List String) (h : headOfType reg ct = none) :
    childHeads reg (ct :: cts) = childHeads reg cts := by
  simp only [childHeads, List.filterMap, h]

theorem childHeadType_cons_none (reg : List ObjectTypeSchema) (ct : String)
    (cts : List String) (tag : String) (h : findSchema reg ct = none) :
    childHeadType reg (ct :: cts) tag = childHeadType reg cts tag := by
  simp only [childHeadType, h]

theorem childHeadType_cons_nilsegs (reg : List ObjectTypeSchema) (ct : String)
    (cts : List String) (tag : String) (sch2 : ObjectTypeSchema)
    (h : findSchema reg ct = some sch2) (hs : sch2.xpathSegs = []) :
    childHeadType reg (ct :: cts) tag = childHeadType reg cts tag := by
  simp only [childHeadType, h, hs]

theorem childHeadType_cons_head (reg : List ObjectTypeSchema) (ct : String)
    (cts : List String) (tag : String) (sch2 : ObjectTypeSchema) (s0 : String)
    (r : List String) (h : findSchema reg ct = some sch2)
    (hs : sch2.xpathSegs = s0 :: r) :
    childHeadType reg (ct :: cts) tag =
      if s0 == tag then some sch2 else childHeadType reg cts tag := by
  simp only [childHeadType, h, hs]

theorem childHeadType_of_mem (reg : List ObjectTypeSchema) (t : String)
    (sch : ObjectTypeSchema) (s : String)
    (hfind : findSchema reg t = some sch)
    (hhead : sch.xpathSegs.head? = some s) :
    ∀ (cts : List String), t ∈ cts →
    nodupB (childHeads reg cts) = true →
    childHeadType reg cts s = some sch
  | [], hmem, _ => by cases hmem
  | ct :: cts, hmem, hnodup => by
    have hht : headOfType reg t = some s := by
      simp only [headOfType, hfind, hhead]
    rcases (show ∃ s0 r, sch.xpathSegs = s0 :: r by
      cases hsegs : sch.xpathSegs with
      | nil => rw [hsegs] at hhead; cases hhead
      | cons s0 r => exact ⟨s0, r, rfl⟩) with ⟨s0, r, hsegs⟩
    have hs0 : s0 = s := by
      rw [hsegs] at hhead
      simp only [List.head?, Option.some.injEq] at hhead
      exact hhead
    subst hs0
    by_cases hct : ct = t
    · subst hct
      rw [childHeadType_cons_head reg ct cts s0 sch s0 r hfind hsegs]
      simp
    · have hmem2 : t ∈ cts := by
        rcases List.mem_cons.mp hmem with h1 | h1
        · exact absurd h1.symm hct
        · exact h1
      cases hf : findSchema reg ct with
      | none =>
        have hnone : headOfType reg ct = none := by
          simp only [headOfType, hf]
        rw [childHeadType_cons_none reg ct cts s0 hf,
          childHeads_cons_none reg ct cts hnone] at *
        exact childHeadType_of_mem reg t sch s0 hfind hhead cts hmem2 hnodup
      | some sch2 =>
        cases hsegs2 : sch2.xpathSegs with
        | nil =>
          have hnone : headOfType reg ct = none := by
            simp only [headOfType, hf, hsegs2, List.head?]
          rw [childHeadType_cons_nilsegs reg ct cts s0 sch2 hf hsegs2,
            childHeads_cons_none reg ct cts hnone] at *
          exact childHeadType_of_mem reg t sch s0 hfind hhead cts hmem2 hnodup
        | cons c0 cr =>
          have hsome : headOfType reg ct = some c0 := by
            simp only [headOfType, hf, hsegs2, List.head?]
          rw [childHeads_cons_some reg ct cts c0 hsome] at hnodup
          rcases nodupB_cons c0 (childHeads reg cts) hnodup with ⟨hnc, hnd2⟩
          have hc0ne : (c0 == s0) = false := by
            cases hbeq : c0 == s0 with
            | false => rfl
            | true =>
              exfalso
              have hceq : c0 = s0 := eq_of_beq hbeq
              subst hceq
              have hin : c0 ∈ childHeads reg cts :=
                mem_childHeads reg cts t c0 hmem2 hht
              have helem := List.elem_eq_true_of_mem hin
              rw [show List.elem c0 (childHeads reg cts)
                = (childHeads reg cts).contains c0 from rfl, hnc] at helem
              cases helem
          rw [childHeadType_cons_head reg ct cts s0 sch2 c0 cr hf hsegs2, hc0ne]
          rw [if_neg (show ¬(false = true) by decide)]
          exact childHeadType_of_mem reg t sch s0 hfind hhead cts hmem2 hnd2

/-! Well-formedness extraction lemmas. -/

theorem specsOk_destruct (specs : List ParamSpec) (chs : List String)
    (h : specsOk specs chs = true) :
    (∀ p ∈ specs, p.wirePath ≠ []) ∧
    (∀ p ∈ specs, ∀ s rest, p.wirePath = s :: rest → chs.contains s = false) ∧
    pairwiseNonPrefix (specs.map (fun p => p.wirePath)) = true ∧
    nodupB (specs.map (fun p => p.name)) = true := by
  simp only [specsOk, Bool.and_eq_true, List.all_eq_true] at h
  rcases h with ⟨⟨h1, h2⟩, h3⟩
  refine ⟨?_, ?_, h2, h3⟩
  · intro p hp
    have := h1 p hp
    cases hw : p.wirePath with
    | nil => rw [hw] at this; cases this
    | cons s rest => simp
  · intro p hp s rest hw
    have := h1 p hp
    rw [hw] at this
    simp only [Bool.not_eq_true'] at this
    exact this

theorem lookupValue_mem (vals : List (String × Value)) (n : String) (v : Value)
    (h : lookupValue vals n = some v) : (n, v) ∈ vals := by
  simp only [lookupValue] at h
  cases hf : vals.find? (fun nv => nv.1 == n) with
  | none => rw [hf] at h; cases h
  | some nv =>
    rw [hf] at h
    simp only [Option.map_some', Option.some.injEq] at h
    have hmem := List.mem_of_find?_eq_some hf
    have hpred := List.find?_some hf
    have hn : nv.1 = n := eq_of_beq hpred
    have hnv : (n, v) = nv := by rw [← hn, ← h]
    rw [hnv]
    exact hmem

theorem find?_name_of_nodup (q : ParamSpec) :
    ∀ (specs : List ParamSpec),
    q ∈ specs → nodupB (specs.map (fun p => p.name)) = true →
    specs.find? (fun p => p.name == q.name) = some q
  | [], hmem, _ => by cases hmem
  | r :: rs, hmem, hnodup => by
    have hnodup2 : nodupB ((r :: rs).map (fun p => p.name)) = true := hnodup
    simp only [List.map] at hnodup2
    rcases nodupB_cons r.name (rs.map (fun p => p.name)) hnodup2 with ⟨hnc, hnd⟩
    rcases List.mem_cons.mp hmem with h1 | h1
    · subst h1
      simp only [List.find?, beq_self_eq_true]
    · have hne : (r.name == q.name) = false := by
        cases hbeq : r.name == q.name with
        | false => rfl
        | true =>
          exfalso
          have heq : r.name = q.name := eq_of_beq hbeq
          have hin : q.name ∈ rs.map (fun p => p.name) :=
            List.mem_map.mpr ⟨q, h1, rfl⟩
          have helem := List.elem_eq_true_of_mem hin
          rw [show List.elem q.name (rs.map (fun p => p.name))
            = (rs.map (fun p => p.name)).contains q.name from rfl] at helem
          rw [← heq, hnc] at helem
          cases helem
      simp only [List.find?, hne]
      exact find?_name_of_nodup q rs h1 hnd

theorem rt_values_of_wf (specs : List ParamSpec) (vals : List (String × Value))
    (hnodup : nodupB (specs.map (fun p => p.name)) = true)
    (hall : (vals.all (fun nv =>
      match specs.find? (fun p => p.name == nv.1) with
      | some p => rtValueOk p.valueKind nv.2
      | none => false)) = true) :
    ∀ q ∈ specs, ∀ w, lookupValue vals q.name = some w →
      rtValueOk q.valueKind w = true := by
  intro q hq w hl
  have hmem := lookupValue_mem vals q.name w hl
  have := List.all_eq_true.mp hall (q.name, w) hmem
  rw [find?_name_of_nodup q specs hq hnodup] at this
  exact this

theorem mem_canonical_any (vals : List (String × Value)) :
    ∀ (specs : List ParamSpec) (nv : String × Value),
    nv ∈ canonicalValues specs vals →
    specs.any (fun p => p.name == nv.1) = true
  | [], _, hmem => by cases hmem
  | p :: ps, nv, hmem => by
    cases hl : lookupValue vals p.name with
    | none =>
      have hmem2 : nv ∈ canonicalValues ps vals := by
        simp only [canonicalValues, hl] at hmem
        exact hmem
      simp only [List.any, mem_canonical_any vals ps nv hmem2, Bool.or_true]
    | some v =>
      have hmem2 : nv ∈ (p.name, v) :: canonicalValues ps vals := by
        simp only [canonicalValues, hl] at hmem
        exact hmem
      rcases List.mem_cons.mp hmem2 with h1 | h1
      · subst h1
        simp only [List.any, beq_self_eq_true, Bool.true_or]
      · simp only [List.any, mem_canonical_any vals ps nv h1, Bool.or_true]

theorem checkValues_ok (sch : ObjectTypeSchema) (specs : List ParamSpec) :
    ∀ (vals : List (String × Value)),
    (∀ nv ∈ vals, specs.any (fun p => p.name == nv.1) = true) →
    checkValues sch specs vals = .ok ()
  | [], _ => rfl
  | nv :: rest, h => by
    have hhd := h nv (List.mem_cons_self _ _)
    simp only [checkValues, hhd, if_pos rfl]
    exact checkValues_ok sch specs rest (fun nv2 h2 => h nv2 (List.mem_cons_of_mem _ h2))

theorem filter_canonical (specs : List ParamSpec) (vals : List (String × Value))
    (hcanon : vals = canonicalValues specs vals) :
    vals.filter (fun nv => specs.any (fun p => p.name == nv.1)) = vals := by
  apply List.filter_eq_self.mpr
  intro nv hmem
  rw [hcanon] at hmem
  exact mem_canonical_any vals specs nv hmem

theorem wfObject_destruct (reg : List ObjectTypeSchema) (v : Version)
    (tid : String) (ident : Option String) (vals : List (String × Value))
    (ch : ConfigForest) (h : wfObject reg v (.mk tid ident vals ch) = true) :
    ∃ sch kv, findSchema reg tid = some sch ∧
      selectVersion sch.paramSpecsByVersion v = some kv ∧
      sch.typeId = tid ∧
      sch.xpathSegs.isEmpty = false ∧
      (if sch.isRepeated then ident.isSome else ident.isNone) = true ∧
      specsOk kv.2 (childHeads reg sch.childTypes) = true ∧
      vals = canonicalValues kv.2 vals ∧
      (vals.all (fun nv =>
        match kv.2.find? (fun p => p.name == nv.1) with
        | some p => rtValueOk p.valueKind nv.2
        | none => false)) = true ∧
      childTypesOk reg sch.childTypes = true ∧
      forestTypesIn ch sch.childTypes = true ∧
      wfForest reg v ch = true := by
  cases hf : findSchema reg tid with
  | none => simp only [wfObject, hf] at h; cases h
  | some sch =>
    cases hsel : selectVersion sch.paramSpecsByVersion v with
    | none => simp only [wfObject, hf, hsel] at h; cases h
    | some kv =>
      simp only [wfObject, hf, hsel, Bool.and_eq_true] at h
      rcases h with ⟨⟨⟨⟨⟨⟨⟨⟨h1, h2⟩, h3⟩, h4⟩, h5⟩, h6⟩, h7⟩, h8⟩, h9⟩
      refine ⟨sch, kv, rfl, hsel, eq_of_beq h1, ?_, h3, h4, of_decide_eq_true h5,
        h6, h7, h8, h9⟩
      simp only [Bool.not_eq_true'] at h2
      exact h2

theorem contains_eq_true_of_mem {l : List String} {a : String} (h : a ∈ l) :
    l.contains a = true := List.elem_eq_true_of_mem h

theorem mem_of_contains_eq_true {l : List String} {a : String}
    (h : l.contains a = true) : a ∈ l := List.mem_of_elem_eq_true h

theorem wfForest_cons (reg : List ObjectTypeSchema) (v : Version)
    (c : ConfigObject) (cs : ConfigForest)
    (h : wfForest reg v (.cons c cs) = true) :
    wfObject reg v c = true ∧ wfForest reg v cs = true := by
  simp only [wfForest, Bool.and_eq_true] at h
  exact h

theorem forestTypesIn_cons (c : ConfigObject) (cs : ConfigForest) (cts : List String)
    (h : forestTypesIn (.cons c cs) cts = true) :
    cts.contains c.typeId = true ∧ forestTypesIn cs cts = true := by
  simp only [forestTypesIn, Bool.and_eq_true] at h
  exact h

theorem childTypesOk_destruct (reg : List ObjectTypeSchema) (cts : List String)
    (h : childTypesOk reg cts = true) :
    (∀ t ∈ cts, ∃ sch, findSchema reg t = some sch ∧ sch.xpathSegs.isEmpty = false) ∧
      nodupB (childHeads reg cts) = true := by
  simp only [childTypesOk, Bool.and_eq_true, List.all_eq_true] at h
  refine ⟨?_, h.2⟩
  intro t ht
  have := h.1 t ht
  cases hf : findSchema reg t with
  | none => rw [hf] at this; cases this
  | some sch =>
    rw [hf] at this
    simp only [Bool.not_eq_true'] at this
    exact ⟨sch, rfl, this⟩

theorem parseNode_descend (reg : List ObjectTypeSchema) (v : Version)
    (sch : ObjectTypeSchema) (s s2 : String) (r2 : List String)
    (a txt : Option String) (f : XForest) :
    parseNode reg v sch (s :: s2 :: r2) (.elem s a txt f) =
      parseSeek reg v sch (s2 :: r2) f := by
  simp only [parseNode, beq_self_eq_true, if_true]

theorem parseSeek_hit (reg : List ObjectTypeSchema) (v : Version)
    (sch : ObjectTypeSchema) (s : String) (r : List String) (x : XNode)
    (xs : XForest) (h : (x.tag == s) = true) :
    parseSeek reg v sch (s :: r) (.cons x xs) = parseNode reg v sch (s :: r) x := by
  simp only [parseSeek, h, if_true]

theorem parseNode_buildChain (reg : List ObjectTypeSchema) (v : Version)
    (sch : ObjectTypeSchema) :
    ∀ (s : String) (rest : List String) (attr : Option String) (content : XForest),
    parseNode reg v sch (s :: rest) (buildChain s rest attr none content) =
      parseNode reg v sch [lastSeg s rest]
        (.elem (lastSeg s rest) attr none content)
  | s, [], attr, content => by
    simp only [buildChain, lastSeg]
  | s, s2 :: r2, attr, content => by
    have hrec := parseNode_buildChain reg v sch s2 r2 attr content
    have htag : ((buildChain s2 r2 attr none content).tag == s2) = true := by
      rw [buildChain_tag]
      exact beq_self_eq_true s2
    show parseNode reg v sch (s :: s2 :: r2)
      (.elem s none none (.cons (buildChain s2 r2 attr none content) .nil))
      = parseNode reg v sch [lastSeg s2 r2] (.elem (lastSeg s2 r2) attr none content)
    rw [parseNode_descend, parseSeek_hit reg v sch s2 r2 _ _ htag]
    exact hrec

theorem parseNode_leaf_singleton (reg : List ObjectTypeSchema) (v : Version)
    (sch : ObjectTypeSchema) (l : String) (content : XForest)
    (kv : Version × List ParamSpec) (vals : List (String × Value))
    (kids : ConfigForest)
    (hrep : sch.isRepeated = false)
    (hsel : selectVersion sch.paramSpecsByVersion v = some kv)
    (hvals : parseValues kv.2 content = .ok vals)
    (hkids : parseKids reg v (paramHeads kv.2) sch.childTypes content = .ok kids) :
    parseNode reg v sch [l] (.elem l none none content)
      = .ok (.mk sch.typeId none vals kids) := by
  simp only [parseNode, beq_self_eq_true, if_true, hsel, hrep, hvals, hkids]
  simp

theorem parseNode_leaf_entry (reg : List ObjectTypeSchema) (v : Version)
    (sch : ObjectTypeSchema) (l : String) (i : String) (content : XForest)
    (kv : Version × List ParamSpec) (vals : List (String × Value))
    (kids : ConfigForest)
    (hrep : sch.isRepeated = true)
    (hsel : selectVersion sch.paramSpecsByVersion v = some kv)
    (hvals : parseValues kv.2 content = .ok vals)
    (hkids : parseKids reg v (paramHeads kv.2) sch.childTypes content = .ok kids) :
    parseNode reg v sch [l] (.elem l (some i) none content)
      = .ok (.mk sch.typeId (some i) vals kids) := by
  simp only [parseNode, beq_self_eq_true, if_true, hsel, hrep, hvals, hkids]

theorem serializeObject_eval (reg : List ObjectTypeSchema) (v : Version)
    (tid : String) (ident : Option String) (vals : List (String × Value))
    (ch : ConfigForest) (sch : ObjectTypeSchema) (kv : Version × List ParamSpec)
    (pf cf : XForest) (attr : Option String) (s : String) (rest : List String)
    (hfind : findSchema reg tid = some sch)
    (hsel : selectVersion sch.paramSpecsByVersion v = some kv)
    (hcheck : checkValues sch kv.2 vals = .ok ())
    (hserp : serializeParams kv.2 vals = .ok pf)
    (hserf : serializeForest reg v ch = .ok cf)
    (hattr : (if sch.isRepeated then
                match ident with
                | some i => Except.ok (some i)
                | none => Except.error CodecError.missingIdentity
              else Except.ok none) = Except.ok attr)
    (hsegs : sch.xpathSegs = s :: rest) :
    serializeObject reg v (.mk tid ident vals ch)
      = .ok (buildChain s rest attr none (xappend pf cf)) := by
  simp only [serializeObject, hfind, hsel, hcheck, hserp, hserf, hattr, hsegs]

mutual
theorem rt_obj : ∀ (c : ConfigObject) (reg : List ObjectTypeSchema) (v : Version)
    (sch : ObjectTypeSchema),
    wfObject reg v c = true → findSchema reg c.typeId = some sch →
    ∃ x, serializeObject reg v c = .ok x ∧
      sch.xpathSegs.head? = some x.tag ∧
      parseObject reg v sch x = .ok c
  | .mk tid ident vals ch, reg, v, sch, hwf, hfind => by
    rcases wfObject_destruct reg v tid ident vals ch hwf with
      ⟨sch0, kv, hf2, hsel, htid, hsegne, hident, hspecs, hcanon, hall, hcts,
        hftypes, hwff⟩
    rw [show ConfigObject.typeId (.mk tid ident vals ch) = tid from rfl] at hfind
    rw [hfind] at hf2
    have hfeq : sch = sch0 := Option.some.inj hf2
    subst hfeq
    rcases specsOk_destruct kv.2 (childHeads reg sch.childTypes) hspecs with
      ⟨hnp, hheads, hpair, hnames⟩
    have hval := rt_values_of_wf kv.2 vals hnames hall
    have henc : ∀ p ∈ kv.2, ∀ w, lookupValue vals p.name = some w →
        ∃ node, encodeParam p w = .ok (some node) := by
      intro p hp w hl
      cases hw : p.wirePath with
      | nil => exact absurd hw (hnp p hp)
      | cons sp rp =>
        exact ⟨_, encodeParam_ok_of_rt p w sp rp hw (hval p hp w hl)⟩
    have hserp := serializeParams_eq_chainsOf kv.2 vals henc
    have hcheck := checkValues_ok sch kv.2 vals
      (fun nv hm => mem_canonical_any vals kv.2 nv (hcanon ▸ hm))
    have hph : ∀ t ∈ childHeads reg sch.childTypes,
        (paramHeads kv.2).contains t = false := by
      intro t ht
      cases hc : (paramHeads kv.2).contains t with
      | false => rfl
      | true =>
        exfalso
        have hmemph : t ∈ paramHeads kv.2 := mem_of_contains_eq_true hc
        rcases List.mem_filterMap.mp hmemph with ⟨p, hp, hphead⟩
        cases hw : p.wirePath with
        | nil => rw [hw] at hphead; cases hphead
        | cons sp rp =>
          rw [hw] at hphead
          simp only [List.head?, Option.some.injEq] at hphead
          subst hphead
          have hcont := hheads p hp sp rp hw
          rw [contains_eq_true_of_mem ht] at hcont
          cases hcont
    rcases rt_forest ch reg v (paramHeads kv.2) sch.childTypes hwff hftypes
      hcts hph with ⟨F, hserf, hpkids, htags⟩
    rcases (show ∃ s rest, sch.xpathSegs = s :: rest by
      cases hs : sch.xpathSegs with
      | nil => rw [hs] at hsegne; cases hsegne
      | cons s rest => exact ⟨s, rest, rfl⟩) with ⟨s, rest, hsegs⟩
    have hC : ∀ p ∈ kv.2, findPathF p.wirePath F = none := by
      intro p hp
      apply findPathF_no_tag
      intro t ht hc
      have htch := htags t ht
      cases hw : p.wirePath with
      | nil => rw [hw] at hc; cases hc
      | cons sp rp =>
        rw [hw] at hc
        simp only [List.head?, Option.some.injEq] at hc
        subst hc
        have hcont := hheads p hp sp rp hw
        rw [contains_eq_true_of_mem htch] at hcont
        cases hcont
    have hdec : ∀ p ∈ kv.2, decodeParam p (xappend (chainsOf kv.2 vals) F)
        = .ok (lookupValue vals p.name) := by
      intro p hp
      exact decodeParam_chains vals F p kv.2 hp hnp hpair hval (hC p hp)
    have hpv : parseValues kv.2 (xappend (chainsOf kv.2 vals) F) = .ok vals := by
      rw [parseValues_of_decode vals (xappend (chainsOf kv.2 vals) F) kv.2 hdec]
      rw [← hcanon]
    have hpk : parseKids reg v (paramHeads kv.2) sch.childTypes
        (xappend (chainsOf kv.2 vals) F) = .ok ch := by
      rw [parseKids_skip reg v (paramHeads kv.2) sch.childTypes
        (chainsOf kv.2 vals) F
        (fun t ht => contains_eq_true_of_mem (topTags_chainsOf kv.2 vals t ht))]
      exact hpkids
    cases hrep : sch.isRepeated with
    | false =>
      have hidnone : ident = none := by
        rw [hrep] at hident
        simp only [if_neg (show ¬(false = true) by decide)] at hident
        exact Option.isNone_iff_eq_none.mp hident
      subst hidnone
      refine ⟨buildChain s rest none none (xappend (chainsOf kv.2 vals) F),
        ?_, ?_, ?_⟩
      · exact serializeObject_eval reg v tid none vals ch sch kv
          (chainsOf kv.2 vals) F none s rest hfind hsel hcheck hserp hserf
          (by rw [hrep]; simp) hsegs
      · rw [hsegs, buildChain_tag]
        rfl
      · show parseNode reg v sch sch.xpathSegs _ = _
        rw [hsegs]
        rw [parseNode_buildChain reg v sch s rest none
          (xappend (chainsOf kv.2 vals) F)]
        rw [parseNode_leaf_singleton reg v sch (lastSeg s rest)
          (xappend (chainsOf kv.2 vals) F) kv vals ch hrep hsel hpv hpk]
        rw [htid]
    | true =>
      rcases (show ∃ i, ident = some i by
        rw [hrep] at hident
        simp only [if_pos rfl] at hident
        exact Option.isSome_iff_exists.mp hident) with ⟨i, hi⟩
      subst hi
      refine ⟨buildChain s rest (some i) none (xappend (chainsOf kv.2 vals) F),
        ?_, ?_, ?_⟩
      · exact serializeObject_eval reg v tid (some i) vals ch sch kv
          (chainsOf kv.2 vals) F (some i) s rest hfind hsel hcheck hserp hserf
          (by rw [hrep]; simp) hsegs
      · rw [hsegs, buildChain_tag]
        rfl
      · show parseNode reg v sch sch.xpathSegs _ = _
        rw [hsegs]
        rw [parseNode_buildChain reg v sch s rest (some i)
          (xappend (chainsOf kv.2 vals) F)]
        rw [parseNode_leaf_entry reg v sch (lastSeg s rest) i
          (xappend (chainsOf kv.2 vals) F) kv vals ch hrep hsel hpv hpk]
        rw [htid]

theorem rt_forest : ∀ (cs : ConfigForest) (reg : List ObjectTypeSchema)
    (v : Version) (ph cts : List String),
    wfForest reg v cs = true → forestTypesIn cs cts = true →
    childTypesOk reg cts = true →
    (∀ t ∈ childHeads reg cts, ph.contains t = false) →
    ∃ F, serializeForest reg v cs = .ok F ∧
      parseKids reg v ph cts F = .ok cs ∧
      (∀ t ∈ topTags F, t ∈ childHeads reg cts)
  | .nil, reg, v, ph, cts, _, _, _, _ =>
    ⟨.nil, rfl, rfl, fun t ht => by cases ht⟩
  | .cons c cs, reg, v, ph, cts, hwf, hft, hctok, hph => by
    rcases wfForest_cons reg v c cs hwf with ⟨hwfc, hwfcs⟩
    rcases forestTypesIn_cons c cs cts hft with ⟨hctc, hftcs⟩
    have hmemc : c.typeId ∈ cts := mem_of_contains_eq_true hctc
    rcases childTypesOk_destruct reg cts hctok with ⟨hres, hnodup⟩
    rcases hres c.typeId hmemc with ⟨csch, hfindc, _⟩
    rcases rt_obj c reg v csch hwfc hfindc with ⟨x, hser, htag, hparse⟩
    rcases rt_forest cs reg v ph cts hwfcs hftcs hctok hph with
      ⟨F, hserf, hpk, htags⟩
    have hhead : headOfType reg c.typeId = some x.tag := by
      simp only [headOfType, hfindc, htag]
    have hxch : x.tag ∈ childHeads reg cts :=
      mem_childHeads reg cts c.typeId x.tag hmemc hhead
    refine ⟨.cons x F, ?_, ?_, ?_⟩
    · simp only [serializeForest, hser, hserf]
    · have hskip : ph.contains x.tag = false := hph x.tag hxch
      have hcht : childHeadType reg cts x.tag = some csch :=
        childHeadType_of_mem reg c.typeId csch x.tag hfindc htag cts hmemc hnodup
      simp only [parseKids, hskip, hcht, hpk]
      rw [if_neg (show ¬(false = true) by decide)]
      have hpn : parseNode reg v csch csch.xpathSegs x = .ok c := hparse
      simp only [hpn]
    · intro t ht
      simp only [topTags] at ht
      rcases List.mem_cons.mp ht with h1 | h1
      · rw [h1]; exact hxch
      · exact htags t h1
end

mutual
theorem restrict_id_obj : ∀ (c : ConfigObject) (reg : List ObjectTypeSchema)
    (v : Version), wfObject reg v c = true → restrictObject reg v c = c
  | .mk tid ident vals ch, reg, v, hwf => by
    rcases wfObject_destruct reg v tid ident vals ch hwf with
      ⟨sch, kv, hf, hsel, _, _, _, hspecs, hcanon, _, _, _, hwff⟩
    have hrf := restrict_id_forest ch reg v hwff
    simp only [restrictObject, hf, hsel, hrf, filter_canonical kv.2 vals hcanon]
theorem restrict_id_forest : ∀ (cs : ConfigForest) (reg : List ObjectTypeSchema)
    (v : Version), wfForest reg v cs = true → restrictForest reg v cs = cs
  | .nil, _, _, _ => rfl
  | .cons c cs, reg, v, hwf => by
    rcases wfForest_cons reg v c cs hwf with ⟨h1, h2⟩
    simp only [restrictForest, restrict_id_obj c reg v h1,
      restrict_id_forest cs reg v h2]
end

theorem singleton_select (k : Version) (ps : List ParamSpec) (t : Version) :
    (k.le t = true → selectVersion [(k, ps)] t = some (k, ps)) ∧
    (t.lt k = true → selectVersion [(k, ps)] t = none) := by
  constructor
  · intro h
    rw [selectVersion_singleton, if_pos h]
  · intro h
    rw [Version.lt_iff_not_le] at h
    have hc : ¬(k.le t = true) := by rw [h]; decide
    rw [selectVersion_singleton, if_neg hc]

theorem checkValues_gated (sch : ObjectTypeSchema) (specs : List ParamSpec) :
    ∀ (vals : List (String × Value)),
    (∀ nv ∈ vals, schemaHasParam sch nv.1 = true) →
    (∃ nv ∈ vals, specs.any (fun p => p.name == nv.1) = false) →
    checkValues sch specs vals = .error .versionGatedParameter
  | [], _, hex => by rcases hex with ⟨nv, h, _⟩; cases h
  | nv :: rest, hall, hex => by
    cases ha : specs.any (fun p => p.name == nv.1) with
    | true =>
      rcases hex with ⟨nv2, hm2, hfa2⟩
      rcases List.mem_cons.mp hm2 with h1 | h1
      · rw [h1, ha] at hfa2
        cases hfa2
      · simp only [checkValues, ha, if_pos rfl]
        exact checkValues_gated sch specs rest
          (fun nv3 h3 => hall nv3 (List.mem_cons_of_mem _ h3)) ⟨nv2, h1, hfa2⟩
    | false =>
      have hhas := hall nv (List.mem_cons_self _ _)
      simp only [checkValues, ha, hhas]
      simp

theorem serializeParams_err (p : ParamSpec) (v : Value) (e : CodecError)
    (vals : List (String × Value))
    (hl : lookupValue vals p.name = some v)
    (he : encodeParam p v = .error e) :
    ∀ (specs : List ParamSpec), p ∈ specs →
    (∀ q ∈ specs, q ≠ p → lookupValue vals q.name = none) →
    serializeParams specs vals = .error e
  | [], hmem, _ => by cases hmem
  | q :: qs, hmem, hothers => by
    by_cases hqp : q = p
    · subst hqp
      simp only [serializeParams, hl, he]
    · have hlq := hothers q (List.mem_cons_self _ _) hqp
      have hmem2 : p ∈ qs := by
        rcases List.mem_cons.mp hmem with h1 | h1
        · exact absurd h1.symm hqp
        · exact h1
      simp only [serializeParams, hlq]
      exact serializeParams_err p v e vals hl he qs hmem2
        (fun r hr hner => hothers r (List.mem_cons_of_mem _ hr) hner)

/-! Claim theorems. -/

/-- Claim C1, amended.  As stated the claim fails: a tree carrying a set
field that resolves at no version at or below the target makes
serialization raise VersionGatedParameterError instead of dropping the
field, per the specification of serialization; and an existence flag
explicitly set to false is omitted on the wire and parses back as unset.
Amended claim: for every tree that is well formed for round-tripping at
the target version (every object resolves, every set field is declared by
the resolved ParamSpec set, value shapes match their kinds, no existence
flag is set to false, values are listed in schema order, and wire paths
cannot capture one another), serialization succeeds and parsing its
output returns exactly the tree restricted to the fields available at the
version, which is the tree itself; no surviving field value is altered. -/
theorem C1_roundtrip_amended (reg : List ObjectTypeSchema) (v : Version)
    (c : ConfigObject) (sch : ObjectTypeSchema)
    (hwf : wfObject reg v c = true)
    (hfind : findSchema reg c.typeId = some sch) :
    ∃ x, serializeObject reg v c = .ok x ∧
      parseObject reg v sch x = .ok (restrictObject reg v c) ∧
      restrictObject reg v c = c := by
  rcases rt_obj c reg v sch hwf hfind with ⟨x, h1, _, h3⟩
  have hres := restrict_id_obj c reg v hwf
  exact ⟨x, h1, by rw [hres]; exact h3, hres⟩

/-- Claim C1 witness: the amended round trip applied to a concrete
three-level catalog tree. -/
theorem C1_roundtrip_amended_witness :
    wfObject catalogReg v910 rtDemoTree = true ∧
    findSchema catalogReg rtDemoTree.typeId = some RemoteNetworks ∧
    (∃ x, serializeObject catalogReg v910 rtDemoTree = .ok x ∧
      parseObject catalogReg v910 RemoteNetworks x
        = .ok (restrictObject catalogReg v910 rtDemoTree) ∧
      restrictObject catalogReg v910 rtDemoTree = rtDemoTree) :=
  ⟨by decide, by decide,
    C1_roundtrip_amended catalogReg v910 rtDemoTree RemoteNetworks
      (by decide) (by decide)⟩

/-- Claim C1 counterexample: gatedObj resolves at 9.1.0 (the type is
registered there), but its only set field exists only at 10.0.0, so
serializing at 9.1.0 raises VersionGatedParameterError; parse of
serialize therefore does not return the restriction of the tree, which
would drop the field. -/
theorem C1_roundtrip_counterexample :
    (selectVersion GatedDemo.paramSpecsByVersion v910).isSome = true ∧
    (serializeObject demoReg v910 gatedObj).bind
        (fun x => parseObject demoReg v910 GatedDemo x)
      ≠ .ok (restrictObject demoReg v910 gatedObj) := by
  constructor
  · decide
  · decide

/-- Claim C2: the version selector returns the entry with the greatest
registered key at most the target, fails exactly when the target is
strictly lower than every registered key, and on this catalog, where
every type registers all parameters at version 9.1.0 only, resolves to
the 9.1.0 set for any target at or above 9.1.0 and fails below it. -/
theorem C2_version_selector :
    (∀ (m : List (Version × List ParamSpec)) (t : Version)
       (kv : Version × List ParamSpec),
      selectVersion m t = some kv →
        kv ∈ m ∧ kv.1.le t = true ∧
        ∀ kv2 ∈ m, kv2.1.le t = true → kv2.1.le kv.1 = true) ∧
    (∀ (m : List (Version × List ParamSpec)) (t : Version),
      selectVersion m t = none ↔ ∀ kv ∈ m, t.lt kv.1 = true) ∧
    (∀ sch ∈ catalogReg, ∃ ps, sch.paramSpecsByVersion = [(v910, ps)] ∧
      ∀ t : Version,
        (v910.le t = true → selectVersion sch.paramSpecsByVersion t
          = some (v910, ps)) ∧
        (t.lt v910 = true → selectVersion sch.paramSpecsByVersion t = none)) := by
  refine ⟨fun m t kv h => selectVersion_spec m t kv h, ?_, ?_⟩
  · intro m t
    rw [selectVersion_none_iff]
    constructor
    · intro h kv hm
      rw [Version.lt_iff_not_le]
      exact h kv hm
    · intro h kv hm
      rw [← Version.lt_iff_not_le]
      exact h kv hm
  · intro sch hmem
    simp only [catalogReg, List.mem_cons, List.mem_singleton] at hmem
    rcases hmem with rfl | rfl | rfl | rfl | rfl | rfl | rfl | rfl | rfl | rfl |
      rfl | rfl | rfl | rfl | rfl | rfl | hfalse
    case _ => exact ⟨_, rfl, fun t => singleton_select v910 _ t⟩
    case _ => exact ⟨_, rfl, fun t => singleton_select v910 _ t⟩
    case _ => exact ⟨_, rfl, fun t => singleton_select v910 _ t⟩
    case _ => exact ⟨_, rfl, fun t => singleton_select v910 _ t⟩
    case _ => exact ⟨_, rfl, fun t => singleton_select v910 _ t⟩
    case _ => exact ⟨_, rfl, fun t => singleton_select v910 _ t⟩
    case _ => exact ⟨_, rfl, fun t => singleton_select v910 _ t⟩
    case _ => exact ⟨_, rfl, fun t => singleton_select v910 _ t⟩
    case _ => exact ⟨_, rfl, fun t => singleton_select v910 _ t⟩
    case _ => exact ⟨_, rfl, fun t => singleton_select v910 _ t⟩
    case _ => exact ⟨_, rfl, fun t => singleton_select v910 _ t⟩
    case _ => exact ⟨_, rfl, fun t => singleton_select v910 _ t⟩
    case _ => exact ⟨_, rfl, fun t => singleton_select v910 _ t⟩
    case _ => exact ⟨_, rfl, fun t => singleton_select v910 _ t⟩
    case _ => exact ⟨_, rfl, fun t => singleton_select v910 _ t⟩
    case _ => exact ⟨_, rfl, fun t => singleton_select v910 _ t⟩
    case _ => cases hfalse

/-- Claim C2 witness: selector facts applied at a singleton map and at a
catalog type, above and below 9.1.0. -/
theorem C2_version_selector_witness :
    (selectVersion [(v910, ([] : List ParamSpec))] ⟨9, 1, 5⟩ = some (v910, []) ∧
      ((v910, ([] : List ParamSpec)) ∈ [(v910, ([] : List ParamSpec))] ∧
        Version.le v910 ⟨9, 1, 5⟩ = true ∧
        ∀ kv2 ∈ [(v910, ([] : List ParamSpec))],
          kv2.1.le ⟨9, 1, 5⟩ = true → kv2.1.le v910 = true)) ∧
    (CloudServicesPlugin ∈ catalogReg ∧
      ∃ ps, CloudServicesPlugin.paramSpecsByVersion = [(v910, ps)] ∧
      ∀ t : Version,
        (v910.le t = true → selectVersion CloudServicesPlugin.paramSpecsByVersion t
          = some (v910, ps)) ∧
        (t.lt v910 = true →
          selectVersion CloudServicesPlugin.paramSpecsByVersion t = none)) :=
  ⟨⟨by decide, C2_version_selector.1 [(v910, [])] ⟨9, 1, 5⟩ (v910, []) (by decide)⟩,
   ⟨by decide, C2_version_selector.2.2 CloudServicesPlugin (by decide)⟩⟩

/-- Claim C3: setting a parameter that exists only at a higher version
succeeds at set time (the in-memory tree carries the value), and
serializing while targeting the lower version raises
VersionGatedParameterError; in particular the demonstration object whose
only set field was introduced at 10.0.0 serializes at 9.1.0 with
VersionGatedParameterError rather than dropping the field. -/
theorem C3_version_gating :
    (∀ (reg : List ObjectTypeSchema) (o : ConfigObject) (n : String)
       (val : Value) (sch : ObjectTypeSchema),
      findSchema reg o.typeId = some sch → schemaHasParam sch n = true →
      setValue reg o n val
        = .ok (.mk o.typeId o.identity (updateValues o.values n val) o.children)) ∧
    (∀ (reg : List ObjectTypeSchema) (v : Version) (tid : String)
       (ident : Option String) (vals : List (String × Value))
       (ch : ConfigForest) (sch : ObjectTypeSchema)
       (kv : Version × List ParamSpec),
      findSchema reg tid = some sch →
      selectVersion sch.paramSpecsByVersion v = some kv →
      (∀ nv ∈ vals, schemaHasParam sch nv.1 = true) →
      (∃ nv ∈ vals, kv.2.any (fun p => p.name == nv.1) = false) →
      serializeObject reg v (.mk tid ident vals ch)
        = .error .versionGatedParameter) ∧
    (setValue demoReg (.mk ("demo.Gated") none [] .nil) ("newfield") (.str ("x"))
      = .ok gatedObj) ∧
    (serializeObject demoReg v910 gatedObj = .error .versionGatedParameter) := by
  refine ⟨?_, ?_, by decide, by decide⟩
  · intro reg o n val sch hfind hhas
    simp only [setValue, hfind, hhas, if_true]
  · intro reg v tid ident vals ch sch kv hfind hsel hall hex
    have hcheck := checkValues_gated sch kv.2 vals hall hex
    simp only [serializeObject, hfind, hsel, hcheck]

/-- Claim C3 witness: set-time success and serialization-time gating at
the demonstration object. -/
theorem C3_version_gating_witness :
    (findSchema demoReg ((ConfigObject.mk ("demo.Gated") none [] .nil).typeId)
        = some GatedDemo ∧
      schemaHasParam GatedDemo ("newfield") = true ∧
      setValue demoReg (.mk ("demo.Gated") none [] .nil) ("newfield")
        (.str ("x"))
        = .ok (.mk ("demo.Gated") none
            (updateValues [] ("newfield") (.str ("x"))) .nil)) ∧
    (findSchema demoReg ("demo.Gated") = some GatedDemo ∧
      serializeObject demoReg v910 gatedObj
        = .error .versionGatedParameter) :=
  ⟨⟨by decide, by decide,
    C3_version_gating.1 demoReg (.mk ("demo.Gated") none [] .nil) ("newfield")
      (.str ("x")) GatedDemo (by decide) (by decide)⟩,
   ⟨by decide,
    C3_version_gating.2.1 demoReg v910 ("demo.Gated") none
      [("newfield", .str ("x"))] .nil GatedDemo (v910, []) (by decide) (by decide)
      (by decide)
      ⟨("newfield", .str ("x")), by decide, by decide⟩⟩⟩

/-- Claim C4: attachChild rejects child types outside the declared set
with InvalidChildTypeError, rejects identity collisions among repeated
siblings of the same type with DuplicateIdentityError, succeeds
otherwise; on the catalog, only plugins.Region may be attached under
AggBandwidth, two Regions with the same name under one parent collide,
and the same name under two different parents succeeds in both. -/
theorem C4_attach_child :
    (∀ (reg : List ObjectTypeSchema) (parent child : ConfigObject)
       (psch : ObjectTypeSchema),
      findSchema reg parent.typeId = some psch →
      psch.childTypes.contains child.typeId = false →
      attachChild reg parent child = .error .invalidChildType) ∧
    (∀ (reg : List ObjectTypeSchema) (parent child : ConfigObject)
       (psch csch : ObjectTypeSchema),
      findSchema reg parent.typeId = some psch →
      psch.childTypes.contains child.typeId = true →
      findSchema reg child.typeId = some csch →
      csch.isRepeated = true →
      forestHasSibling parent.children child.typeId child.identity = true →
      attachChild reg parent child = .error .duplicateIdentity) ∧
    (∀ (reg : List ObjectTypeSchema) (parent child : ConfigObject)
       (psch csch : ObjectTypeSchema),
      findSchema reg parent.typeId = some psch →
      psch.childTypes.contains child.typeId = true →
      findSchema reg child.typeId = some csch →
      (csch.isRepeated &&
        forestHasSibling parent.children child.typeId child.identity) = false →
      attachChild reg parent child
        = .ok (.mk parent.typeId parent.identity parent.values
            (appendChild parent.children child))) ∧
    AggBandwidth.childTypes = ["plugins.Region"] ∧
    (∀ (child : ConfigObject) (r : ConfigObject),
      attachChild catalogReg aggEmpty child = .ok r →
      child.typeId = "plugins.Region") ∧
    attachChild catalogReg aggEmpty regionR = .ok aggWithR ∧
    attachChild catalogReg aggWithR regionR = .error .duplicateIdentity ∧
    attachChild catalogReg agg2Empty regionR = .ok agg2WithR := by
  refine ⟨?_, ?_, ?_, rfl, ?_, by decide, by decide, by decide⟩
  · intro reg parent child psch hfind hcont
    simp only [attachChild, hfind, hcont]
    simp
  · intro reg parent child psch csch hfind hcont hfindc hrep hsib
    simp only [attachChild, hfind, hcont, hfindc, hrep, hsib, if_true]
    simp
  · intro reg parent child psch csch hfind hcont hfindc hno
    simp only [attachChild, hfind, hcont, hfindc, hno, if_true]
    simp
  · intro child r h
    have hf : findSchema catalogReg aggEmpty.typeId = some AggBandwidth := by decide
    simp only [attachChild, hf] at h
    cases hc : AggBandwidth.childTypes.contains child.typeId with
    | false =>
      rw [hc] at h
      simp at h
    | true =>
      have hmem := mem_of_contains_eq_true hc
      simp only [AggBandwidth, List.mem_singleton] at hmem
      exact hmem

/-- Claim C4 witness: the general clauses applied to concrete catalog
objects. -/
theorem C4_attach_child_witness :
    (findSchema catalogReg aggEmpty.typeId = some AggBandwidth ∧
      AggBandwidth.childTypes.contains bgpObj.typeId = false ∧
      attachChild catalogReg aggEmpty bgpObj = .error .invalidChildType) ∧
    (AggBandwidth.childTypes.contains regionR.typeId = true ∧
      findSchema catalogReg regionR.typeId = some Region ∧
      Region.isRepeated = true ∧
      forestHasSibling aggWithR.children regionR.typeId regionR.identity = true ∧
      attachChild catalogReg aggWithR regionR = .error .duplicateIdentity) :=
  ⟨⟨by decide, by decide,
    C4_attach_child.1 catalogReg aggEmpty bgpObj AggBandwidth
      (by decide) (by decide)⟩,
   ⟨by decide, by decide, by decide, by decide,
    C4_attach_child.2.1 catalogReg aggWithR regionR AggBandwidth Region
      (by decide) (by decide) (by decide) (by decide) (by decide)⟩⟩

/-- Claim C5: the absolute xpath is the root-to-leaf concatenation of
each ancestor's fragment, repeated ancestors immediately followed by the
entry predicate and singletons contributing only their fragment; the
path depends only on the chain's type and identity projections, and the
concrete catalog chains produce the documented paths. -/
theorem C5_xpath :
    (∀ (reg : List ObjectTypeSchema) (c1 c2 : List ConfigObject),
      c1.map (fun o => (o.typeId, o.identity))
        = c2.map (fun o => (o.typeId, o.identity)) →
      buildXPath reg c1 = buildXPath reg c2) ∧
    buildXPath catalogReg [cspO, rnsO, aggEmpty, regionR]
      = some ("/plugins/cloud_services/remote-networks/agg-bandwidth/region[@name="
          ++ squote ++ "R" ++ squote ++ "]") ∧
    buildXPath catalogReg [cspO] = some ("/plugins/cloud_services") := by
  refine ⟨?_, by decide, by decide⟩
  intro reg c1
  induction c1 with
  | nil =>
    intro c2 h
    cases c2 with
    | nil => rfl
    | cons o2 r2 => cases h
  | cons o1 r1 ih =>
    intro c2 h
    cases c2 with
    | nil => cases h
    | cons o2 r2 =>
      simp only [List.map, List.cons.injEq, Prod.mk.injEq] at h
      rcases h with ⟨⟨htid, hid⟩, htail⟩
      simp only [buildXPath, htid, hid, ih r2 htail]

/-- Claim C5 witness: the projection-invariance clause applied to two
chains that differ in values and children but share types and
identities. -/
theorem C5_xpath_witness :
    ([cspO, regionR].map (fun o => (o.typeId, o.identity))
      = [cspValsO, regionValsO].map (fun o => (o.typeId, o.identity))) ∧
    buildXPath catalogReg [cspO, regionR]
      = buildXPath catalogReg [cspValsO, regionValsO] :=
  ⟨by decide,
   C5_xpath.1 catalogReg [cspO, regionR] [cspValsO, regionValsO] (by decide)⟩

/-- Claim C6: a member-list value serializes to one member element per
entry in list order, an explicitly set empty list emits the container
with no member children, an unset member-list omits the container, and
concrete member-list values on Region and RemoteNetwork survive a
serialize-parse round trip in order. -/
theorem C6_member_list :
    (∀ (n seg : String) (d : Option Value) (l : List String),
      encodeParam ⟨n, [seg], .member, d⟩ (.list l)
        = .ok (some (.elem seg none none (membersForest l)))) ∧
    (∀ l : List String, collectMembers (membersForest l) = some l) ∧
    (∀ (n seg : String) (d : Option Value),
      serializeParams [⟨n, [seg], .member, d⟩] [] = .ok .nil) ∧
    (∀ (n seg : String) (d : Option Value),
      decodeParam ⟨n, [seg], .member, d⟩ .nil = .ok none) ∧
    (∀ (n seg : String) (d : Option Value),
      decodeParam ⟨n, [seg], .member, d⟩
        (.cons (.elem seg none none .nil) .nil) = .ok (some (.list []))) ∧
    ((serializeObject catalogReg v910 regionMemberObj).bind
      (fun x => parseObject catalogReg v910 Region x) = .ok regionMemberObj) ∧
    ((serializeObject catalogReg v910 rnSubnetsObj).bind
      (fun x => parseObject catalogReg v910 RemoteNetwork x) = .ok rnSubnetsObj) := by
  refine ⟨fun n seg d l => rfl, collectMembers_membersForest, fun n seg d => rfl,
    fun n seg d => rfl, ?_, by decide, by decide⟩
  intro n seg d
  simp [decodeParam, findPathF, findPathN, XNode.tag, decodeLeaf, XNode.children,
    collectMembers]

/-- Claim C7: an existence flag set to true serializes to an empty
element at its wire path, false or unset emits nothing; parsing the
empty element yields true, absence yields logically unset; shown in
general and on RoutingPreference.default, hot_potato_routing, and the
DNS use-cloud-default flag. -/
theorem C7_exist_flag :
    (∀ (n seg : String) (d : Option Value),
      encodeParam ⟨n, [seg], .exist, d⟩ (.bool true)
        = .ok (some (.elem seg none none .nil))) ∧
    (∀ (n seg : String) (d : Option Value),
      encodeParam ⟨n, [seg], .exist, d⟩ (.bool false) = .ok none) ∧
    (∀ (n seg : String) (d : Option Value),
      serializeParams [⟨n, [seg], .exist, d⟩] [] = .ok .nil) ∧
    (∀ (n seg : String) (d : Option Value),
      decodeParam ⟨n, [seg], .exist, d⟩
        (.cons (.elem seg none none .nil) .nil) = .ok (some (.bool true))) ∧
    (∀ (n seg : String) (d : Option Value),
      decodeParam ⟨n, [seg], .exist, d⟩ .nil = .ok none) ∧
    serializeObject catalogReg v910 rpTrue
      = .ok (.elem ("routing-preference") none none
          (.cons (.elem ("default") none none .nil) .nil)) ∧
    serializeObject catalogReg v910 rpFalse
      = .ok (.elem ("routing-preference") none none .nil) ∧
    serializeObject catalogReg v910 dnsCloudObj
      = .ok (.elem ("primary") none none
          (.cons (.elem ("use_cloud_default") none none .nil) .nil)) ∧
    parseObject catalogReg v910 RoutingPreference
      (.elem ("routing-preference") none none
        (.cons (.elem ("Hot-Potato-Routing") none none .nil) .nil))
      = .ok (.mk ("plugins.RoutingPreference") none
          [("hot_potato_routing", .bool true)] .nil) ∧
    parseObject catalogReg v910 RoutingPreference
      (.elem ("routing-preference") none none .nil)
      = .ok (.mk ("plugins.RoutingPreference") none [] .nil) := by
  refine ⟨fun n seg d => rfl, fun n seg d => rfl, fun n seg d => rfl, ?_,
    fun n seg d => rfl, by decide, by decide, by decide, by decide, by decide⟩
  intro n seg d
  simp [decodeParam, findPathF, findPathN, XNode.tag, decodeLeaf]

/-- Claim C8: an unset parameter with a declared default is not emitted,
while an explicitly set parameter is emitted even when the set value
equals the default: serializing the params of any schema with no set
values emits nothing, and a UdpQueries object with interval 2 and
attempts 5 explicitly set emits both retries/interval and
retries/attempts at version 9.1.0. -/
theorem C8_default_omission :
    (∀ specs : List ParamSpec, serializeParams specs [] = .ok .nil) ∧
    UdpQueries.paramSpecsByVersion
      = [(v910, [⟨"interval", ["retries", "interval"], .int, some (.int 2)⟩,
                 ⟨"attempts", ["retries", "attempts"], .int, some (.int 5)⟩])] ∧
    serializeObject catalogReg v910 udpUnsetObj
      = .ok (.elem ("udp-queries") none none .nil) ∧
    serializeObject catalogReg v910 udpObj
      = .ok (.elem ("udp-queries") none none
          (.cons (.elem ("retries") none none
            (.cons (.elem ("interval") none (some ("2")) .nil) .nil))
           (.cons (.elem ("retries") none none
            (.cons (.elem ("attempts") none (some ("5")) .nil) .nil))
            .nil))) := by
  refine ⟨?_, rfl, by decide, by decide⟩
  intro specs
  induction specs with
  | nil => rfl
  | cons p ps ih =>
    simp only [serializeParams, show lookupValue [] p.name = none from rfl, ih]

/-- Claim C9: serializing an enum parameter validates the value against
the allowed set before any encoding, failing with InvalidEnumValueError
otherwise and emitting the literal text node for allowed values; on the
catalog, RemoteNetwork.ecmp_load_balancing serializes successfully
exactly for enabled-with-symmetric-return and disabled. -/
theorem C9_enum :
    (∀ (n seg : String) (rest : List String) (d : Option Value)
       (allowed : List String) (s : String),
      allowed.contains s = true →
      encodeParam ⟨n, seg :: rest, .enum allowed, d⟩ (.str s)
        = .ok (some (buildChain seg rest none (some s) .nil))) ∧
    (∀ (n seg : String) (rest : List String) (d : Option Value)
       (allowed : List String) (s : String),
      allowed.contains s = false →
      encodeParam ⟨n, seg :: rest, .enum allowed, d⟩ (.str s)
        = .error .invalidEnumValue) ∧
    (∀ s : String,
      (∃ x, serializeObject catalogReg v910 (rnEcmp s) = .ok x) ↔
        (s = "enabled-with-symmetric-return" ∨ s = "disabled")) := by
  refine ⟨?_, ?_, ?_⟩
  · intro n seg rest d allowed s h
    have hm : s ∈ allowed := mem_of_contains_eq_true h
    simp [encodeParam, encodeLeaf, hm]
  · intro n seg rest d allowed s h
    have hm : s ∉ allowed := fun hmem => by
      rw [contains_eq_true_of_mem hmem] at h
      cases h
    simp [encodeParam, encodeLeaf, hm]
  · intro s
    constructor
    · rintro ⟨x, hx⟩
      cases hc : (["enabled-with-symmetric-return", "disabled"] :
          List String).contains s with
      | true =>
        have hmem := mem_of_contains_eq_true hc
        simp only [List.mem_cons, List.mem_singleton] at hmem
        rcases hmem with h | h | h
        · exact Or.inl h
        · exact Or.inr h
        · cases h
      | false =>
        exfalso
        have hlp : lookupValue [("ecmp_load_balancing", Value.str s)]
            ("ecmp_load_balancing") = some (.str s) := rfl
        have henc : encodeParam ecmpSpec (.str s) = .error .invalidEnumValue := by
          have hm : s ∉ (["enabled-with-symmetric-return", "disabled"] :
              List String) := fun hmem => by
            rw [contains_eq_true_of_mem hmem] at hc
            cases hc
          simp [ecmpSpec, encodeParam, encodeLeaf, hm]
        have hothers : ∀ q ∈ rnSpecs910, q ≠ ecmpSpec →
            lookupValue [("ecmp_load_balancing", Value.str s)] q.name = none := by
          intro q hq hne
          have hq2 : q ∈ ([⟨"subnets", ["subnets"], .member, none⟩,
            ⟨"region", ["region"], .str, none⟩,
            ⟨"license_type", ["license-type"], .str, none⟩,
            ⟨"ipsec_tunnel", ["ipsec-tunnel"], .str, none⟩,
            ⟨"secondary_wan_enabled", ["secondary-wan-enabled"], .yesno, none⟩,
            ⟨"ecmp_load_balancing", ["ecmp-load-balancing"],
             .enum ["enabled-with-symmetric-return", "disabled"], none⟩,
            ⟨"secondary_ipsec_tunnel", ["secondary-ipsec-tunnel"], .str, none⟩,
            ⟨"spn_name", ["spn-name"], .str, none⟩,
            ⟨"inbound_flow_over_pa_backbone", ["inbound-flow-over-pa-backbone"],
             .yesno, none⟩] : List ParamSpec) := hq
          simp only [List.mem_cons, List.mem_singleton] at hq2
          rcases hq2 with rfl | rfl | rfl | rfl | rfl | rfl | rfl | rfl | rfl | hf
          · rfl
          · rfl
          · rfl
          · rfl
          · rfl
          · exact absurd rfl hne
          · rfl
          · rfl
          · rfl
          · cases hf
        have hsp : serializeParams rnSpecs910
            [("ecmp_load_balancing", Value.str s)] = .error .invalidEnumValue :=
          serializeParams_err ecmpSpec (.str s) .invalidEnumValue _ hlp henc
            rnSpecs910 (by decide) hothers
        have hcheck : checkValues RemoteNetwork rnSpecs910
            [("ecmp_load_balancing", Value.str s)] = .ok () := by
          apply checkValues_ok
          intro nv hnv
          rcases List.mem_cons.mp hnv with h1 | h1
          · rw [h1]
            show (rnSpecs910.any fun p => p.name == ("ecmp_load_balancing")) = true
            decide
          · cases h1
        have herr : serializeObject catalogReg v910 (rnEcmp s)
            = .error .invalidEnumValue := by
          have hf : findSchema catalogReg ("plugins.RemoteNetwork")
              = some RemoteNetwork := by decide
          have hsel : selectVersion RemoteNetwork.paramSpecsByVersion v910
              = some (v910, rnSpecs910) := by decide
          simp only [rnEcmp, serializeObject, hf, hsel, hcheck, hsp]
        rw [herr] at hx
        cases hx
    · rintro (rfl | rfl)
      · exact ⟨.elem ("onboarding") (some "rn1") none
          (.cons (.elem ("ecmp-load-balancing") none
            (some ("enabled-with-symmetric-return")) .nil) .nil), by decide⟩
      · exact ⟨.elem ("onboarding") (some "rn1") none
          (.cons (.elem ("ecmp-load-balancing") none
            (some ("disabled")) .nil) .nil), by decide⟩

/-- Claim C9 witness: the validation clauses applied at the catalog's
allowed value disabled and at a rejected value. -/
theorem C9_enum_witness :
    ((["enabled-with-symmetric-return", "disabled"] :
        List String).contains ("disabled") = true ∧
      encodeParam ⟨("ecmp_load_balancing"), ["ecmp-load-balancing"],
          .enum ["enabled-with-symmetric-return", "disabled"], none⟩
          (.str ("disabled"))
        = .ok (some (buildChain ("ecmp-load-balancing") [] none
            (some ("disabled")) .nil))) ∧
    ((["enabled-with-symmetric-return", "disabled"] :
        List String).contains ("bogus") = false ∧
      encodeParam ⟨("ecmp_load_balancing"), ["ecmp-load-balancing"],
          .enum ["enabled-with-symmetric-return", "disabled"], none⟩
          (.str ("bogus"))
        = .error .invalidEnumValue) :=
  ⟨⟨by decide,
    C9_enum.1 ("ecmp_load_balancing") ("ecmp-load-balancing") [] none
      ["enabled-with-symmetric-return", "disabled"] ("disabled") (by decide)⟩,
   ⟨by decide,
    C9_enum.2.1 ("ecmp_load_balancing") ("ecmp-load-balancing") [] none
      ["enabled-with-symmetric-return", "disabled"] ("bogus") (by decide)⟩⟩

/-- Claim C10: constructing the abstract DNS base class directly raises
PanDeviceError, each of the four concrete subclasses constructs
successfully, and the two public variants carry the same_as_internal
existence flag while the two internal variants do not. -/
theorem C10_dns_hierarchy :
    dnsConstruct .base = .error .panDeviceError ∧
    dnsConstruct .primaryInternal = .ok PrimaryInternalDNSServer ∧
    dnsConstruct .secondaryInternal = .ok SecondaryInternalDNSServer ∧
    dnsConstruct .primaryPublic = .ok PrimaryPublicDNSServer ∧
    dnsConstruct .secondaryPublic = .ok SecondaryPublicDNSServer ∧
    PrimaryPublicDNSServer.paramSpecsByVersion = [(v910, add_dns_params true)] ∧
    SecondaryPublicDNSServer.paramSpecsByVersion = [(v910, add_dns_params true)] ∧
    PrimaryInternalDNSServer.paramSpecsByVersion = [(v910, add_dns_params false)] ∧
    SecondaryInternalDNSServer.paramSpecsByVersion
      = [(v910, add_dns_params false)] ∧
    (add_dns_params true).any (fun p =>
      decide (p = ⟨"same_as_internal", ["same-as-internal"], .exist, none⟩))
      = true ∧
    (add_dns_params false).all (fun p => !(p.name == "same_as_internal")) = true ∧
    schemaHasParam PrimaryPublicDNSServer ("same_as_internal") = true ∧
    schemaHasParam SecondaryPublicDNSServer ("same_as_internal") = true ∧
    schemaHasParam PrimaryInternalDNSServer ("same_as_internal") = false ∧
    schemaHasParam SecondaryInternalDNSServer ("same_as_internal") = false := by
  decide

end Panos
